import Mathlib

/-!
Verification development for the hydra service router
(src/service_router/router.py).  The Python source is shallowly embedded:
pure fragments become Lean functions, the mutable object state of the
relevant classes becomes explicit state records threaded through the
step functions, machine real-time values become rationals, and external
collaborators (the network, the log files, the JSON parser of the
standard library) become oracle parameters.  Byte strings are modelled
as lists of naturals; base64 transport encoding is a bijection handled
by an external library, so chunk payloads are carried in decoded form.
-/

namespace Hydra

/-- Decoded byte strings (base64 decode/encode is an external bijection,
so payloads are modelled directly as byte lists). -/
abbrev Bytes := List Nat

/-! ## Bridge supervisor backoff (router.py, BridgeManager)

`BRIDGE_MIN_S = 0.5` and `BRIDGE_MAX_S = 30.0` (router.py:3299-3300).
The supervisor state that matters for the restart policy is whether a
child process is currently alive and the stored backoff delay
(router.py:3315 initialises `self.backoff = BRIDGE_MIN_S`).

`start()` (router.py:3321-3349): if the child is already running it
returns; on a successful spawn it sets `self.backoff = BRIDGE_MIN_S`
(router.py:3337); on a spawn failure it returns with the state
unchanged.  The `ready` record from the child (router.py:3391-3396)
records the address and fires the callback but does not touch
`self.backoff`.  `_restart_later` (router.py:3451-3463), reached when
the stdout pump of a live child terminates, takes `delay = self.backoff`,
stores `self.backoff = min(self.backoff * 2.0, BRIDGE_MAX_S)` and
schedules `start()` after `delay` seconds. -/

def BRIDGE_MIN_S : ℚ := 1/2

def BRIDGE_MAX_S : ℚ := 30

/-- The supervisor state relevant to the restart policy: whether the
child process is alive, and the stored exponential-backoff delay. -/
structure BridgeState where
  running : Bool
  backoff : ℚ
deriving DecidableEq

/-- Initial bridge state (router.py:3311, 3315): no child process and
backoff at `BRIDGE_MIN_S`. -/
def bridgeInit : BridgeState := { running := false, backoff := BRIDGE_MIN_S }

/-- Events driving the supervisor: `start()` finding no live child and
spawning successfully, `start()` whose spawn raises, the child dying
(stdout pump termination, which runs `_restart_later`), and the child
reporting `ready`. -/
inductive BridgeEv
  | spawnOk
  | spawnFail
  | crash
  | ready
deriving DecidableEq

/-- One supervisor transition.  The second component is the restart
delay scheduled by `_restart_later`, when the event is a child death.
`spawnOk` resets the backoff to `BRIDGE_MIN_S` (router.py:3336-3337);
`ready` leaves the backoff unchanged (router.py:3391-3396); `crash`
uses the current backoff as the delay and doubles it capped at 30 s
(router.py:3454-3455). -/
def bridgeStep (st : BridgeState) (ev : BridgeEv) : BridgeState × Option ℚ :=
  match ev with
  | .spawnOk =>
      if st.running then (st, none)
      else ({ running := true, backoff := BRIDGE_MIN_S }, none)
  | .spawnFail => (st, none)
  | .crash =>
      ({ running := false, backoff := min (st.backoff * 2) BRIDGE_MAX_S },
       some st.backoff)
  | .ready => (st, none)

/-- Run the supervisor over an event trace, collecting the scheduled
restart delays in order. -/
def bridgeRun (st : BridgeState) : List BridgeEv → BridgeState × List ℚ
  | [] => (st, [])
  | ev :: evs =>
      let (st', d) := bridgeStep st ev
      let (stF, ds) := bridgeRun st' evs
      (stF, (match d with | some q => [q] | none => []) ++ ds)

/-- A trace is well formed when a crash only happens while a child is
running (the stdout pump exists only for a spawned child) and a spawn
only happens while no child is running (`start()` returns early
otherwise, router.py:3323-3324). -/
def bridgeWF : BridgeState → List BridgeEv → Prop
  | _, [] => True
  | st, ev :: evs =>
      (ev = BridgeEv.crash → st.running = true) ∧
      ((ev = BridgeEv.spawnOk ∨ ev = BridgeEv.spawnFail) → st.running = false) ∧
      bridgeWF (bridgeStep st ev).1 evs

/-- Invariant: while a child is running, the stored backoff is exactly
`BRIDGE_MIN_S`, because the successful spawn that produced the child
reset it and nothing since has changed it. -/
theorem bridge_running_backoff (st : BridgeState) (ev : BridgeEv)
    (h : st.running = true → st.backoff = BRIDGE_MIN_S) :
    (bridgeStep st ev).1.running = true → (bridgeStep st ev).1.backoff = BRIDGE_MIN_S := by
  cases ev <;> simp [bridgeStep]
  · split
    · exact h
    · simp
  · exact h
  · exact h

/-- Every restart delay produced on a well-formed trace from a state
satisfying the running-backoff invariant equals `BRIDGE_MIN_S`. -/
theorem bridge_all_delays_min (evs : List BridgeEv) : ∀ (st : BridgeState),
    bridgeWF st evs →
    (st.running = true → st.backoff = BRIDGE_MIN_S) →
    ∀ d ∈ (bridgeRun st evs).2, d = BRIDGE_MIN_S := by
  induction evs with
  | nil => intro st _ _ d hd; simp [bridgeRun] at hd
  | cons ev evs ih =>
      intro st hwf hinv d hd
      obtain ⟨hc, _hs, hrest⟩ := hwf
      simp only [bridgeRun] at hd
      cases ev with
      | spawnOk =>
          simp only [bridgeStep] at hd hrest
          exact ih _ hrest (by
            intro hr
            by_cases hrun : st.running
            · simp [hrun] at hd hrest ⊢
              exact hinv hrun
            · simp [hrun] at hd hrest ⊢) d (by
              by_cases hrun : st.running
              · simpa [hrun] using hd
              · simpa [hrun] using hd)
      | spawnFail =>
          simp only [bridgeStep] at hd hrest
          exact ih _ hrest hinv d (by simpa using hd)
      | crash =>
          have hrun := hc rfl
          simp only [bridgeStep, List.mem_append] at hd
          rcases hd with hd | hd
          · simp at hd
            rw [hd]
            exact hinv hrun
          · exact ih _ hrest (fun h => Bool.noConfusion h) d hd
      | ready =>
          simp only [bridgeStep] at hd hrest
          exact ih _ hrest hinv d (by simpa using hd)

/-- C3: the claim asserts the restart delays across consecutive child
exits follow 0.5, 1, 2, 4, ... (doubling, capped at 30 s) with a reset
only on a successful `ready`.  On the code, `start()` resets the
backoff on every successful spawn (router.py:3337), before any `ready`
arrives, and the `ready` handler never touches the backoff
(router.py:3391-3396).  Since every child death is necessarily preceded
by a successful spawn, the doubled value stored by `_restart_later` is
discarded before it is ever used: on the well-formed crash-loop trace
spawn, crash, spawn, crash (no `ready` at all), the scheduled delays
are [0.5, 0.5], not the [0.5, 1] the claimed sequence requires. -/
theorem c3_backoff_reset_on_spawn_not_ready :
    bridgeWF bridgeInit
      [BridgeEv.spawnOk, BridgeEv.crash, BridgeEv.spawnOk, BridgeEv.crash] ∧
    (bridgeRun bridgeInit
      [BridgeEv.spawnOk, BridgeEv.crash, BridgeEv.spawnOk, BridgeEv.crash]).2
      = [1/2, 1/2] ∧
    ((1 : ℚ)/2 : ℚ) ≠ 1 := by
  refine ⟨?_, by norm_num [bridgeRun, bridgeStep, bridgeInit, BRIDGE_MIN_S], by norm_num⟩
  simp [bridgeWF, bridgeStep, bridgeInit]

/-! ## HTTP retry loop (router.py, RelayNode._http_request_with_retry)

`_http_request_with_retry` (router.py:4325-4335) tries
`session.request` up to `self.retry_attempts` times; it returns
immediately on any response object (whatever its status code), and only
a `requests.RequestException` (a transport-level failure) is caught.
After each failed attempt `k` (0-based) it sleeps
`min(self.retry_backoff * (2 ** attempt), self.retry_cap)` seconds;
when all attempts failed the last exception is re-raised.  The defaults
(router.py:3808-3810) are `retries = 4`, `retry_backoff = 0.5`,
`retry_cap = 4.0`.  The outcome of each `session.request` call is an
oracle: attempt `k` either yields a response (carrying a status code)
or raises a transport exception (carried as a message string). -/

inductive HttpAttempt
  | resp (status : Nat)
  | exn (msg : String)
deriving DecidableEq

/-- Result of the retry loop: how many `session.request` calls were
made, the sleeps performed (in seconds, in order), and either the
returned response status or the propagated exception message. -/
structure RetryResult where
  calls : Nat
  sleeps : List ℚ
  result : Except String Nat

/-- The loop body of `_http_request_with_retry` (router.py:4327-4335),
with `k` the current 0-based attempt index, `rem` the remaining
attempts, and `lastExc` the `last_exc` variable.  `rem = 0` corresponds
to falling out of the `for` loop: re-raise `last_exc` if set, else
raise `RuntimeError("request failed")`. -/
def retryLoop (backoff cap : ℚ) (oracle : Nat → HttpAttempt) :
    Nat → Nat → Option String → RetryResult
  | _, 0, lastExc =>
      { calls := 0, sleeps := [],
        result := .error (match lastExc with
          | some e => e
          | none => "request failed") }
  | k, rem + 1, _ =>
      match oracle k with
      | .resp s => { calls := 1, sleeps := [], result := .ok s }
      | .exn e =>
          let r := retryLoop backoff cap oracle (k + 1) rem (some e)
          { calls := r.calls + 1,
            sleeps := min (backoff * 2 ^ k) cap :: r.sleeps,
            result := r.result }

/-- `_http_request_with_retry` with the oracle of per-attempt outcomes:
start at attempt 0 with `last_exc = None`. -/
def httpRequestWithRetry (attempts : Nat) (backoff cap : ℚ)
    (oracle : Nat → HttpAttempt) : RetryResult :=
  retryLoop backoff cap oracle 0 attempts none

theorem retryLoop_resp (backoff cap : ℚ) (oracle : Nat → HttpAttempt)
    (k rem : Nat) (lastExc : Option String) (s : Nat) (h : oracle k = .resp s) :
    retryLoop backoff cap oracle k (rem + 1) lastExc =
      { calls := 1, sleeps := [], result := .ok s } := by
  show (match oracle k with
    | HttpAttempt.resp s => { calls := 1, sleeps := [], result := Except.ok s }
    | HttpAttempt.exn e =>
        let r := retryLoop backoff cap oracle (k + 1) rem (some e)
        { calls := r.calls + 1,
          sleeps := min (backoff * 2 ^ k) cap :: r.sleeps,
          result := r.result } : RetryResult) = _
  rw [h]

theorem retryLoop_exn (backoff cap : ℚ) (oracle : Nat → HttpAttempt)
    (k rem : Nat) (lastExc : Option String) (e : String) (h : oracle k = .exn e) :
    retryLoop backoff cap oracle k (rem + 1) lastExc =
      { calls := (retryLoop backoff cap oracle (k + 1) rem (some e)).calls + 1,
        sleeps := min (backoff * 2 ^ k) cap ::
          (retryLoop backoff cap oracle (k + 1) rem (some e)).sleeps,
        result := (retryLoop backoff cap oracle (k + 1) rem (some e)).result } := by
  show (match oracle k with
    | HttpAttempt.resp s => { calls := 1, sleeps := [], result := Except.ok s }
    | HttpAttempt.exn e =>
        let r := retryLoop backoff cap oracle (k + 1) rem (some e)
        { calls := r.calls + 1,
          sleeps := min (backoff * 2 ^ k) cap :: r.sleeps,
          result := r.result } : RetryResult) = _
  rw [h]

theorem retryLoop_calls_le (backoff cap : ℚ) (oracle : Nat → HttpAttempt) :
    ∀ rem k lastExc, (retryLoop backoff cap oracle k rem lastExc).calls ≤ rem := by
  intro rem
  induction rem with
  | zero => intro k lastExc; simp [retryLoop]
  | succ n ih =>
      intro k lastExc
      cases horacle : oracle k with
      | resp s => rw [retryLoop_resp backoff cap oracle k n lastExc s horacle]; simp
      | exn e =>
          rw [retryLoop_exn backoff cap oracle k n lastExc e horacle]
          simpa using ih (k + 1) (some e)

theorem retryLoop_exn_before (backoff cap : ℚ) (oracle : Nat → HttpAttempt) :
    ∀ rem k lastExc j, j + 1 < (retryLoop backoff cap oracle k rem lastExc).calls →
      ∃ e, oracle (k + j) = .exn e := by
  intro rem
  induction rem with
  | zero => intro k lastExc j h; simp [retryLoop] at h
  | succ n ih =>
      intro k lastExc j h
      cases horacle : oracle k with
      | resp s =>
          rw [retryLoop_resp backoff cap oracle k n lastExc s horacle] at h
          simp at h
      | exn e =>
          rw [retryLoop_exn backoff cap oracle k n lastExc e horacle] at h
          simp only at h
          cases j with
          | zero => exact ⟨e, by simpa using horacle⟩
          | succ i =>
              have := ih (k + 1) (some e) i (by omega)
              simpa [Nat.add_assoc, Nat.add_comm 1 i] using this

theorem retryLoop_isOk_calls_pos (backoff cap : ℚ) (oracle : Nat → HttpAttempt) :
    ∀ rem k lastExc, (retryLoop backoff cap oracle k rem lastExc).result.isOk →
      1 ≤ (retryLoop backoff cap oracle k rem lastExc).calls := by
  intro rem
  induction rem with
  | zero => intro k lastExc h; simp [retryLoop, Except.isOk, Except.toBool] at h
  | succ n ih =>
      intro k lastExc h
      cases horacle : oracle k with
      | resp s => rw [retryLoop_resp backoff cap oracle k n lastExc s horacle]
      | exn e =>
          rw [retryLoop_exn backoff cap oracle k n lastExc e horacle]
          exact Nat.succ_le_succ (Nat.zero_le _)

theorem retryLoop_sleeps (backoff cap : ℚ) (oracle : Nat → HttpAttempt) :
    ∀ rem k lastExc,
      (retryLoop backoff cap oracle k rem lastExc).sleeps =
        (List.range ((retryLoop backoff cap oracle k rem lastExc).calls -
          (if (retryLoop backoff cap oracle k rem lastExc).result.isOk then 1 else 0))).map
          (fun j => min (backoff * 2 ^ (k + j)) cap) := by
  intro rem
  induction rem with
  | zero => intro k lastExc; simp [retryLoop]
  | succ n ih =>
      intro k lastExc
      cases horacle : oracle k with
      | resp s =>
          rw [retryLoop_resp backoff cap oracle k n lastExc s horacle]
          simp [Except.isOk, Except.toBool]
      | exn e =>
          rw [retryLoop_exn backoff cap oracle k n lastExc e horacle]
          simp only
          rw [ih (k + 1) (some e)]
          rcases hres : (retryLoop backoff cap oracle (k + 1) n (some e)).result with e' | s'
          · have hif : (if (Except.error e' : Except String Nat).isOk = true
                then 1 else 0) = 0 := rfl
            rw [hif, Nat.sub_zero, Nat.sub_zero, List.range_succ_eq_map]
            simp only [List.map_cons, List.map_map, Nat.add_zero]
            congr 1
            apply List.map_congr_left
            intro j _
            simp only [Function.comp_apply, Nat.succ_eq_add_one]
            have harith : k + 1 + j = k + (j + 1) := by omega
            rw [harith]
          · have hc1 : 1 ≤ (retryLoop backoff cap oracle (k + 1) n (some e)).calls :=
              retryLoop_isOk_calls_pos backoff cap oracle n (k + 1) (some e)
                (by rw [hres]; rfl)
            have hif : (if (Except.ok s' : Except String Nat).isOk = true
                then 1 else 0) = 1 := rfl
            rw [hif]
            have hstep : (retryLoop backoff cap oracle (k + 1) n (some e)).calls + 1 - 1 =
                ((retryLoop backoff cap oracle (k + 1) n (some e)).calls - 1) + 1 := by omega
            rw [hstep, List.range_succ_eq_map]
            simp only [List.map_cons, List.map_map, Nat.add_zero]
            congr 1
            apply List.map_congr_left
            intro j _
            simp only [Function.comp_apply, Nat.succ_eq_add_one]
            have harith : k + 1 + j = k + (j + 1) := by omega
            rw [harith]

theorem retryLoop_all_exn (backoff cap : ℚ) (oracle : Nat → HttpAttempt) :
    ∀ rem k lastExc,
      (∀ j < rem, ∃ e, oracle (k + j) = .exn e) →
      0 < rem →
      ∃ e, oracle (k + (rem - 1)) = .exn e ∧
        (retryLoop backoff cap oracle k rem lastExc).result = .error e ∧
        (retryLoop backoff cap oracle k rem lastExc).calls = rem := by
  intro rem
  induction rem with
  | zero => intro k lastExc _ h0; omega
  | succ n ih =>
      intro k lastExc hall _
      obtain ⟨e, he⟩ := hall 0 (by omega)
      simp only [Nat.add_zero] at he
      cases n with
      | zero =>
          refine ⟨e, by simpa using he, ?_, ?_⟩ <;>
            rw [retryLoop_exn backoff cap oracle k 0 lastExc e he] <;>
              simp [retryLoop]
      | succ m =>
          obtain ⟨e', he', hres, hcalls⟩ :=
            ih (k + 1) (some e)
              (fun j hj => by
                have := hall (j + 1) (by omega)
                simpa [Nat.add_assoc, Nat.add_comm 1 j] using this)
              (by omega)
          refine ⟨e', ?_, ?_, ?_⟩
          · have harith : k + 1 + (m + 1 - 1) = k + (m + 1 + 1 - 1) := by omega
            rwa [harith] at he'
          · rw [retryLoop_exn backoff cap oracle k (m + 1) lastExc e he]
            simpa using hres
          · rw [retryLoop_exn backoff cap oracle k (m + 1) lastExc e he]
            simpa using hcalls

/-- C6: with the default configuration (4 attempts, 0.5 s base, 4.0 s
cap), for every oracle of per-attempt outcomes: (1) at most 4
`session.request` calls are made; (2) whenever a further attempt was
made after attempt `j`, attempt `j` raised a transport exception — a
response, whatever its status, is returned immediately and never
retried; (3) the sleeps performed are exactly
`min(0.5 * 2 ^ k, 4.0)` for `k = 0, 1, ...`, one per failed attempt;
(4) if a response is returned it is the oracle's response for the last
attempt made; (5) if all 4 attempts fail, the exception of attempt 3
(the last one) is propagated. -/
theorem c6_retry_policy (oracle : Nat → HttpAttempt) :
    (httpRequestWithRetry 4 (1/2) 4 oracle).calls ≤ 4 ∧
    (∀ j, j + 1 < (httpRequestWithRetry 4 (1/2) 4 oracle).calls →
      ∃ e, oracle j = .exn e) ∧
    ((httpRequestWithRetry 4 (1/2) 4 oracle).sleeps =
      (List.range ((httpRequestWithRetry 4 (1/2) 4 oracle).calls -
        (if (httpRequestWithRetry 4 (1/2) 4 oracle).result.isOk then 1 else 0))).map
        (fun k => min ((1/2) * 2 ^ k) 4)) ∧
    (∀ s, (httpRequestWithRetry 4 (1/2) 4 oracle).result = .ok s →
      oracle ((httpRequestWithRetry 4 (1/2) 4 oracle).calls - 1) = .resp s) ∧
    ((∀ j < 4, ∃ e, oracle j = .exn e) →
      ∃ e, oracle 3 = .exn e ∧
        (httpRequestWithRetry 4 (1/2) 4 oracle).result = .error e ∧
        (httpRequestWithRetry 4 (1/2) 4 oracle).calls = 4) := by
  refine ⟨retryLoop_calls_le _ _ _ 4 0 none,
    fun j hj => by simpa using retryLoop_exn_before (1/2) 4 oracle 4 0 none j hj,
    by simpa using retryLoop_sleeps (1/2) 4 oracle 4 0 none,
    ?_, ?_⟩
  · intro s hs
    unfold httpRequestWithRetry at hs ⊢
    rcases h0 : oracle 0 with s0 | e0
    · simp [retryLoop, h0] at hs ⊢; omega
    · rcases h1 : oracle 1 with s1 | e1
      · simp [retryLoop, h0, h1] at hs ⊢; omega
      · rcases h2 : oracle 2 with s2 | e2
        · simp [retryLoop, h0, h1, h2] at hs ⊢; omega
        · rcases h3 : oracle 3 with s3 | e3
          · simp [retryLoop, h0, h1, h2, h3] at hs ⊢; omega
          · simp [retryLoop, h0, h1, h2, h3] at hs
  · intro hall
    simpa using retryLoop_all_exn (1/2) 4 oracle 4 0 none (fun j hj => by simpa using hall j hj) (by omega)

/-- Witness for C6 at a concrete oracle on which every attempt raises a
transport exception: the last attempt's exception is propagated after
exactly 4 calls. -/
theorem c6_retry_policy_witness :
    ∃ e, (fun _ : Nat => HttpAttempt.exn "boom") 3 = .exn e ∧
      (httpRequestWithRetry 4 (1/2) 4 (fun _ => .exn "boom")).result = .error e ∧
      (httpRequestWithRetry 4 (1/2) 4 (fun _ => .exn "boom")).calls = 4 :=
  (c6_retry_policy (fun _ => .exn "boom")).2.2.2.2 (fun _ _ => ⟨"boom", rfl⟩)

/-! ## Upload reassembly (router.py, RelayNode upload handlers)

The upload session table `self.upload_sessions` is a dict keyed by
upload id; it is modelled as an association list.  Chunk payloads
arrive base64-encoded and are decoded with
`base64.b64decode(..., validate=False)` (router.py:4572); the model
carries the decoded bytes plus a flag for decode failure.  Whether
`json.loads` succeeds on the assembled body (router.py:4639-4641) is an
oracle `jsonOk`.  `time.time()` values are passed in as rational
parameters. -/

/-- Python's `a or b` on strings: `b` when `a` is empty. -/
def orS (a b : String) : String := if a = "" then b else a

/-- Whether `pat` is a leading subsequence of the character list. -/
def leadsWith : List Char → List Char → Bool
  | [], _ => true
  | _ :: _, [] => false
  | a :: as, b :: bs => a == b && leadsWith as bs

/-- Whether `pat` occurs contiguously in the character list. -/
def containsSeq (pat : List Char) : List Char → Bool
  | [] => leadsWith pat []
  | s :: rest => leadsWith pat (s :: rest) || containsSeq pat rest

/-- Python's `in` on strings (substring test). -/
def strContainsSub (s pat : String) : Bool := containsSeq pat.data s.data

/-- Python's `str.lower()` (ASCII case folding, as applied to header
values and service hints here). -/
def lowerStr (s : String) : String := String.mk (s.data.map Char.toLower)

/-- Dict lookup on an association list. -/
def lookupA {β : Type} (l : List (String × β)) (k : String) : Option β :=
  (l.find? (fun p => p.1 == k)).map Prod.snd

/-- Dict assignment on an association list (replace in place, append if
absent). -/
def setA {β : Type} (l : List (String × β)) (k : String) (v : β) : List (String × β) :=
  if (l.find? (fun p => p.1 == k)).isSome then
    l.map (fun p => if p.1 == k then (k, v) else p)
  else l ++ [(k, v)]

/-- `dict.pop(k, None)` on an association list. -/
def eraseA {β : Type} (l : List (String × β)) (k : String) : List (String × β) :=
  l.filter (fun p => !(p.1 == k))

/-- Python `dict.get` on a header map. -/
def headerGet (hs : List (String × String)) (k : String) : Option String :=
  (hs.find? (fun p => p.1 == k)).map Prod.snd

/-- How `_finalize_upload` attaches the assembled body to the request
(router.py:4638-4645): `req["json"] = json.loads(...)` when the
content type contains `application/json` and parsing succeeds (the
parse input is the assembled data), otherwise
`req["body_b64"] = base64.b64encode(data)`. -/
inductive UploadBody
  | jsonOf (data : Bytes)
  | b64Of (data : Bytes)
deriving DecidableEq

/-- The decoded bytes a body attachment was built from. -/
def UploadBody.data : UploadBody → Bytes
  | .jsonOf d => d
  | .b64Of d => d

/-- The part of the `req` descriptor dict the upload path reads and
writes: its header map and the body attached at finalization. -/
structure UploadReq where
  headers : List (String × String) := []
  body : Option UploadBody := none
deriving DecidableEq

/-- A queued HTTP job (`self.jobs.put({"src": ..., "id": ..., "req": ...})`,
router.py:4100-4101). -/
structure Job where
  src : String
  rid : String
  req : UploadReq
deriving DecidableEq

/-- Observable messages the upload path emits through `bridge.dm`: the
single-response error envelope produced by `_send_upload_error`
(router.py:4472-4485; `ok` is always false there) and the
`http.upload.missing` resend request (router.py:4490-4504). -/
inductive NodeOut
  | response (dst : String) (rid : String) (ok : Bool) (status : Nat)
      (error : Option String)
  | uploadMissing (dst : String) (rid : String) (uid : String) (missing : List Nat)
      (total : Nat) (got : Nat)
deriving DecidableEq

/-- One upload session (the dict built in router.py:4525-4535 /
4557-4567, plus the timestamps added later). -/
structure UploadEntry where
  src : String
  rid : String
  req : Option UploadReq
  chunks : List (Option Bytes)
  total : Nat
  got : Nat
  ended : Bool
  ctype : String
  created : ℚ
  lastChunk : Option ℚ := none
  endReceivedTime : Option ℚ := none
  missingRequested : Option ℚ := none
deriving DecidableEq

/-- The relay-node state the upload handlers touch: the session table,
the job queue, and the emitted messages (append-only trace). -/
structure UpState where
  uploadSessions : List (String × UploadEntry) := []
  jobs : List Job := []
  outs : List NodeOut := []
deriving DecidableEq

/-- `_send_upload_error` (router.py:4472-4485): emit a
`relay.response{ok:false}` with the given status.  Message strings are
the source's constants; the interpolated detail of the oversize message
(the two byte counts in router.py:4577) is elided from the constant. -/
def sendUploadError (st : UpState) (src rid : String) (msg : String) (status : Nat) : UpState :=
  { st with outs := st.outs ++ [.response src rid false status (some msg)] }

/-- `_request_missing` (router.py:4490-4504): emit
`http.upload.missing` with the missing sequence numbers. -/
def requestMissing (st : UpState) (uid : String) (entry : UploadEntry)
    (missing : List Nat) : UpState :=
  if missing = [] then st
  else
    { st with outs := st.outs ++
        [.uploadMissing entry.src (orS entry.rid uid) uid missing
          (if entry.total ≠ 0 then entry.total else entry.chunks.length) entry.got] }

/-- The 1-based indices of the unfilled slots
(`[i + 1 for i, ch in enumerate(chunks) if ch is None]`,
router.py:4614). -/
def missingSlots (chunks : List (Option Bytes)) : List Nat :=
  (List.range chunks.length).filterMap
    (fun i => if chunks.getD i none = none then some (i + 1) else none)

/-- The body-attachment step of `_finalize_upload`
(router.py:4636-4645): derive the content type from the session or the
request headers, parse JSON when it applies and succeeds, otherwise
attach the raw bytes base64-encoded. -/
def attachUploadBody (jsonOk : Bytes → Bool) (entry : UploadEntry) (data : Bytes) :
    UploadReq :=
  let req := entry.req.getD {}
  let ctype := orS entry.ctype ((headerGet req.headers "Content-Type").getD "")
  if strContainsSub ctype "application/json" then
    if jsonOk data then { req with body := some (.jsonOf data) }
    else { req with body := some (.b64Of data) }
  else { req with body := some (.b64Of data) }

/-- `_finalize_upload` (router.py:4612-4650).  With missing slots and
`allow_partial` false it applies the grace-window logic and possibly
emits a resend request; otherwise it concatenates the present chunks in
slot order, attaches the body, enqueues the job and drops the
session. -/
def finalizeUpload (now : ℚ) (jsonOk : Bytes → Bool) (uid : String)
    (entry : UploadEntry) (st : UpState) (allowPartial : Bool) : UpState :=
  let missing := missingSlots entry.chunks
  if missing ≠ [] ∧ ¬allowPartial then
    let endT := entry.endReceivedTime.getD now
    let timeSinceEnd := now - endT
    match entry.missingRequested with
    | none =>
        if timeSinceEnd < 2 then st
        else
          let entry' := { entry with missingRequested := some now }
          requestMissing { st with uploadSessions := setA st.uploadSessions uid entry' }
            uid entry' missing
    | some t =>
        if now - t < 1 then st
        else
          let entry' := { entry with missingRequested := some now }
          requestMissing { st with uploadSessions := setA st.uploadSessions uid entry' }
            uid entry' missing
  else
    let data := (entry.chunks.filterMap id).flatten
    let req' := attachUploadBody jsonOk entry data
    { st with
        jobs := st.jobs ++ [{ src := entry.src, rid := entry.rid, req := req' }],
        uploadSessions := eraseA st.uploadSessions uid }

/-- The fields of an `http.upload.begin` body the handler reads
(router.py:4506-4512). -/
structure BeginMsg where
  uploadId : String
  req : Option UploadReq
  total : Nat
  contentType : String

/-- `_handle_upload_begin` (router.py:4506-4537): create a session, or
merge into one started implicitly by a chunk without overwriting
non-empty fields. -/
def handleUploadBegin (now : ℚ) (st : UpState) (src rid : String) (m : BeginMsg) :
    UpState :=
  let uid := orS m.uploadId rid
  if uid = "" then st
  else
    match lookupA st.uploadSessions uid with
    | some entry =>
        let e1 := if entry.req = none then { entry with req := m.req } else entry
        let e2 := if e1.ctype = "" then { e1 with ctype := m.contentType } else e1
        let e3 := if e2.total = 0 ∧ m.total ≠ 0 then
            { e2 with total := m.total, chunks := List.replicate m.total none }
          else e2
        { st with uploadSessions := setA st.uploadSessions uid e3 }
    | none =>
        let entry : UploadEntry :=
          { src := src, rid := rid, req := m.req,
            chunks := if m.total > 0 then List.replicate m.total none else [],
            total := m.total, got := 0, ended := false,
            ctype := m.contentType, created := now }
        { st with uploadSessions := setA st.uploadSessions uid entry }

/-- The fields of an `http.upload.chunk` body the handler reads
(router.py:4539-4580): the upload id, the 1-based sequence number, the
base64 payload (carried decoded, with a flag for decode failure), and
the optional session-recovery fields. -/
structure ChunkMsg where
  uploadId : String
  seq : Nat
  b64ok : Bool
  payload : Bytes
  req : Option UploadReq
  total : Nat
  contentType : String

/-- The part of `_handle_upload_chunk` after the session is resolved
(router.py:4570-4595). -/
def uploadChunkPlace (now : ℚ) (chunkUploadB : Nat) (jsonOk : Bytes → Bool)
    (st : UpState) (src rid uid : String) (entry : UploadEntry) (m : ChunkMsg) : UpState :=
  if ¬m.b64ok then sendUploadError st src rid "invalid chunk b64" 400
  else if m.payload.length > chunkUploadB then
    let st1 := sendUploadError st src rid "chunk too large" 413
    { st1 with uploadSessions := eraseA st1.uploadSessions uid }
  else
    let total := entry.total
    if total > 0 ∧ (m.seq < 1 ∨ m.seq > total) then
      sendUploadError st src rid "chunk seq out of range" 400
    else
      let entry' :=
        if total > 0 then
          { entry with
              got := if entry.chunks.getD (m.seq - 1) none = none then entry.got + 1
                else entry.got,
              chunks := entry.chunks.set (m.seq - 1) (some m.payload),
              lastChunk := some now }
        else
          { entry with
              chunks := entry.chunks ++ [some m.payload],
              got := entry.got + 1,
              lastChunk := some now }
      let st1 := { st with uploadSessions := setA st.uploadSessions uid entry' }
      if entry'.ended ∧ ((total > 0 ∧ entry'.got ≥ total) ∨ total = 0) then
        finalizeUpload now jsonOk uid entry' st1 false
      else st1

/-- `_handle_upload_chunk` (router.py:4539-4595).  A chunk with no
session and no `req` is dropped silently; an oversized chunk is
rejected with a 413 and the session destroyed; an out-of-range sequence
is rejected with a 400; otherwise the chunk is placed in slot
`seq - 1` (`got` counts only first placements) and, when the session
already ended and is now complete, finalization runs.  The slot
indexing `entry["chunks"][seq - 1]` is modelled with `getD`/`set`; it
is in range whenever `total > 0` because the sequence check has
already enforced `1 ≤ seq ≤ total` and sessions with `total > 0` hold
`total` slots. -/
def handleUploadChunk (now : ℚ) (chunkUploadB : Nat) (jsonOk : Bytes → Bool)
    (st : UpState) (src rid : String) (m : ChunkMsg) : UpState :=
  let uid := orS m.uploadId rid
  match lookupA st.uploadSessions uid with
  | none =>
      match m.req with
      | none => st
      | some r =>
          let entry : UploadEntry :=
            { src := src, rid := rid, req := some r,
              chunks := if m.total > 0 then List.replicate m.total none else [],
              total := m.total, got := 0, ended := false,
              ctype := orS m.contentType ((headerGet r.headers "Content-Type").getD ""),
              created := now }
          let st1 := { st with uploadSessions := setA st.uploadSessions uid entry }
          uploadChunkPlace now chunkUploadB jsonOk st1 src rid uid entry m
  | some entry => uploadChunkPlace now chunkUploadB jsonOk st src rid uid entry m

/-- `_handle_upload_end` (router.py:4597-4610): an unknown upload id is
answered with a 404 error response; otherwise the session is marked
ended, stamped, and finalization runs (the source passes
`allow_partial=False` on both branches of its final `if`). -/
def handleUploadEnd (now : ℚ) (jsonOk : Bytes → Bool) (st : UpState)
    (src rid : String) (uploadId : String) : UpState :=
  let uid := orS uploadId rid
  match lookupA st.uploadSessions uid with
  | none => sendUploadError st src rid "unknown upload id" 404
  | some entry =>
      let entry' := { entry with ended := true, endReceivedTime := some now }
      let st1 := { st with uploadSessions := setA st.uploadSessions uid entry' }
      if entry'.total = 0 ∨ entry'.got ≥ entry'.total then
        finalizeUpload now jsonOk uid entry' st1 false
      else
        finalizeUpload now jsonOk uid entry' st1 false

theorem lookupA_single {β : Type} (k : String) (v : β) : lookupA [(k, v)] k = some v := by
  simp [lookupA]

theorem setA_single {β : Type} (k : String) (v w : β) : setA [(k, v)] k w = [(k, w)] := by
  simp [setA]

theorem eraseA_single {β : Type} (k : String) (v : β) : eraseA [(k, v)] k = [] := by
  simp [eraseA]

/-- C8 counterexample: the claim says an `http.upload.end` whose
`upload_id` has no active session is a no-op with no response emitted;
on the code (`_handle_upload_end`, router.py:4600-4602) it emits a
`relay.response{ok:false, status:404, error:"unknown upload id"}`. -/
theorem c8_late_end_not_silent :
    (handleUploadEnd 0 (fun _ => false)
        { uploadSessions := [], jobs := [], outs := [] } "peer" "r1" "u1").outs =
      [NodeOut.response "peer" "r1" false 404 (some "unknown upload id")] := by
  simp [handleUploadEnd, lookupA, orS, sendUploadError]

/-- C8 amended: an `http.upload.end` referencing an `upload_id` with no
active session leaves the session table and the job queue unchanged and
emits exactly one `relay.response{ok:false, status:404,
error:"unknown upload id"}` to the sender (router.py:4600-4602); it is
not silent. -/
theorem c8_late_end_behavior (now : ℚ) (jsonOk : Bytes → Bool) (st : UpState)
    (src rid uploadId : String)
    (h : lookupA st.uploadSessions (orS uploadId rid) = none) :
    handleUploadEnd now jsonOk st src rid uploadId =
      { st with outs := st.outs ++
          [NodeOut.response src rid false 404 (some "unknown upload id")] } := by
  simp only [handleUploadEnd, h, sendUploadError]

/-- Witness for C8 at the empty session table. -/
theorem c8_late_end_behavior_witness :
    handleUploadEnd 1 (fun _ => true)
        { uploadSessions := [], jobs := [], outs := [] } "peer2" "r2" "u2" =
      { uploadSessions := [], jobs := [],
        outs := [NodeOut.response "peer2" "r2" false 404 (some "unknown upload id")] } := by
  rw [c8_late_end_behavior 1 (fun _ => true)
    { uploadSessions := [], jobs := [], outs := [] } "peer2" "r2" "u2" (by rfl)]
  rfl

/-- C7: for a live session with one expected chunk, a chunk whose
decoded payload has exactly `chunk_upload_b` bytes passes the size
check (router.py:4576) and is placed into its slot with no error
emitted, while a payload one byte larger is rejected with a
`relay.response{ok:false, status:413}` and the session is destroyed
(router.py:4576-4579). -/
theorem c7_chunk_size_boundary (B : Nat) (payload : Bytes) (now : ℚ)
    (jsonOk : Bytes → Bool) (uid src rid : String) (entry : UploadEntry)
    (jobs0 : List Job) (outs0 : List NodeOut)
    (huid : uid ≠ "") (h1 : entry.total = 1) (h2 : entry.chunks = [none])
    (h3 : entry.ended = false) :
    (payload.length = B →
      handleUploadChunk now B jsonOk
          { uploadSessions := [(uid, entry)], jobs := jobs0, outs := outs0 } src rid
          { uploadId := uid, seq := 1, b64ok := true, payload := payload,
            req := none, total := 0, contentType := "" } =
        { uploadSessions :=
            [(uid,
              { entry with
                  chunks := [some payload],
                  got := entry.got + 1,
                  lastChunk := some now })],
          jobs := jobs0, outs := outs0 }) ∧
    (payload.length = B + 1 →
      handleUploadChunk now B jsonOk
          { uploadSessions := [(uid, entry)], jobs := jobs0, outs := outs0 } src rid
          { uploadId := uid, seq := 1, b64ok := true, payload := payload,
            req := none, total := 0, contentType := "" } =
        { uploadSessions := [], jobs := jobs0,
          outs := outs0 ++ [NodeOut.response src rid false 413 (some "chunk too large")] }) := by
  constructor
  · intro hlen
    unfold handleUploadChunk
    simp only [orS, if_neg huid, lookupA_single]
    unfold uploadChunkPlace
    simp only [Bool.not_true, Bool.false_eq_true, if_false, hlen, gt_iff_lt,
      lt_irrefl, h1, h3, setA_single, sendUploadError]
    norm_num
    rw [h2]
    simp
  · intro hlen
    unfold handleUploadChunk
    simp only [orS, if_neg huid, lookupA_single]
    unfold uploadChunkPlace
    simp only [Bool.not_true, Bool.false_eq_true, if_false, hlen, sendUploadError,
      eraseA_single]
    norm_num

/-- Witness for C7 with the default `chunk_upload_b = 600 * 1024`
(router.py:3804): a payload of exactly 614400 bytes is accepted, one of
614401 bytes is rejected with a 413 and the session is dropped. -/
theorem c7_chunk_size_boundary_witness :
    (handleUploadChunk 0 (600 * 1024) (fun _ => false)
        { uploadSessions := [("u7",
            { src := "s7", rid := "r7", req := some {}, chunks := [none], total := 1,
              got := 0, ended := false, ctype := "", created := 0 })],
          jobs := [], outs := [] } "peer7" "r7"
        { uploadId := "u7", seq := 1, b64ok := true,
          payload := List.replicate (600 * 1024) 0,
          req := none, total := 0, contentType := "" } =
      { uploadSessions := [("u7",
          { src := "s7", rid := "r7", req := some {},
            chunks := [some (List.replicate (600 * 1024) 0)], total := 1,
            got := 1, ended := false, ctype := "", created := 0,
            lastChunk := some 0 })],
        jobs := [], outs := [] }) ∧
    (handleUploadChunk 0 (600 * 1024) (fun _ => false)
        { uploadSessions := [("u7",
            { src := "s7", rid := "r7", req := some {}, chunks := [none], total := 1,
              got := 0, ended := false, ctype := "", created := 0 })],
          jobs := [], outs := [] } "peer7" "r7"
        { uploadId := "u7", seq := 1, b64ok := true,
          payload := List.replicate (600 * 1024 + 1) 0,
          req := none, total := 0, contentType := "" } =
      { uploadSessions := [], jobs := [],
        outs := [NodeOut.response "peer7" "r7" false 413 (some "chunk too large")] }) := by
  constructor
  · exact (c7_chunk_size_boundary (600 * 1024) (List.replicate (600 * 1024) 0) 0
      (fun _ => false) "u7" "peer7" "r7"
      { src := "s7", rid := "r7", req := some {}, chunks := [none], total := 1,
        got := 0, ended := false, ctype := "", created := 0 }
      [] [] (by decide) rfl rfl rfl).1 (List.length_replicate _ _)
  · exact (c7_chunk_size_boundary (600 * 1024) (List.replicate (600 * 1024 + 1) 0) 0
      (fun _ => false) "u7" "peer7" "r7"
      { src := "s7", rid := "r7", req := some {}, chunks := [none], total := 1,
        got := 0, ended := false, ctype := "", created := 0 }
      [] [] (by decide) rfl rfl rfl).2 (List.length_replicate _ _)

/-! ## C4: order independence of upload reassembly

The slot array of a session whose chunks with sequence numbers `S`
(1-based) have been placed, when `total = n`, is fully characterised by
membership in `S`; processing the chunks of an upload in any arrival
order therefore reaches the same array, and finalization concatenates
it in slot order. -/

/-- The slot array holding `pay s` in slot `s - 1` for every `s ∈ S`
(and empty slots elsewhere), for a session with `total = n`. -/
def chunksOf (n : Nat) (pay : Nat → Bytes) (S : List Nat) : List (Option Bytes) :=
  (List.range n).map (fun i => if (i + 1) ∈ S then some (pay (i + 1)) else none)

/-- An `http.upload.chunk` message carrying only the id, sequence
number and payload (no session-recovery fields), as a client sends
after a `begin`. -/
def chunkArrival (uid : String) (s : Nat) (p : Bytes) : ChunkMsg :=
  { uploadId := uid, seq := s, b64ok := true, payload := p,
    req := none, total := 0, contentType := "" }

/-- Feed a list of `(seq, payload)` chunk messages through
`_handle_upload_chunk` in arrival order. -/
def processChunks (now : ℚ) (B : Nat) (jsonOk : Bytes → Bool)
    (src rid uid : String) (st : UpState) (L : List (Nat × Bytes)) : UpState :=
  L.foldl (fun s m => handleUploadChunk now B jsonOk s src rid (chunkArrival uid m.1 m.2)) st

/-- The canonical arrival order of an `n`-chunk upload with payloads
`pay`: sequence numbers 1 to n in order. -/
def uploadGraph (n : Nat) (pay : Nat → Bytes) : List (Nat × Bytes) :=
  (List.range n).map (fun k => (k + 1, pay (k + 1)))

/-- The session entry reached after a `begin{total := n}` followed by
placement of the chunks with sequence numbers `S`. -/
def entryAt (src0 rid0 : String) (req0 : UploadReq) (ct : String) (n : Nat)
    (pay : Nat → Bytes) (created now1 : ℚ) (S : List Nat) : UploadEntry :=
  { src := src0, rid := rid0, req := some req0, chunks := chunksOf n pay S,
    total := n, got := S.length, ended := false, ctype := ct, created := created,
    lastChunk := if S.isEmpty then none else some now1 }

theorem chunksOf_getD (n : Nat) (pay : Nat → Bytes) (S : List Nat) (i : Nat)
    (hi : i < n) :
    (chunksOf n pay S).getD i none =
      if (i + 1) ∈ S then some (pay (i + 1)) else none := by
  simp only [chunksOf, List.getD_eq_getElem?_getD, List.getElem?_map, List.getElem?_range hi]
  rfl

theorem chunksOf_length (n : Nat) (pay : Nat → Bytes) (S : List Nat) :
    (chunksOf n pay S).length = n := by
  simp [chunksOf]

theorem chunksOf_nil (n : Nat) (pay : Nat → Bytes) :
    chunksOf n pay [] = List.replicate n none := by
  rw [List.eq_replicate_iff]
  refine ⟨chunksOf_length n pay [], ?_⟩
  intro b hb
  simp only [chunksOf] at hb
  rcases List.mem_map.mp hb with ⟨i, _, hfb⟩
  simpa using hfb.symm

theorem chunksOf_getElemQ (n : Nat) (pay : Nat → Bytes) (S : List Nat) (i : Nat) :
    (chunksOf n pay S)[i]? =
      if i < n then some (if (i + 1) ∈ S then some (pay (i + 1)) else none)
      else none := by
  by_cases hi : i < n
  · simp only [chunksOf, List.getElem?_map, List.getElem?_range hi, if_pos hi]
    rfl
  · rw [if_neg hi, List.getElem?_eq_none]
    rw [chunksOf_length]
    omega

theorem chunksOf_set (n : Nat) (pay : Nat → Bytes) (S : List Nat) (s : Nat)
    (hs1 : 1 ≤ s) (hsn : s ≤ n) :
    (chunksOf n pay S).set (s - 1) (some (pay s)) = chunksOf n pay (s :: S) := by
  apply List.ext_getElem?
  intro i
  rw [List.getElem?_set, chunksOf_getElemQ, chunksOf_getElemQ, chunksOf_length]
  by_cases heq : s - 1 = i
  · have hsi : s = i + 1 := by omega
    have hilt : i < n := by omega
    rw [if_pos heq, if_pos (show s - 1 < n by omega), if_pos hilt,
      if_pos (by rw [hsi]; exact List.mem_cons_self _ _), hsi]
  · rw [if_neg heq]
    by_cases hilt : i < n
    · rw [if_pos hilt, if_pos hilt]
      have hmem : i + 1 ∈ s :: S ↔ i + 1 ∈ S := by
        constructor
        · intro h
          rcases List.mem_cons.mp h with h | h
          · omega
          · exact h
        · intro h
          exact List.mem_cons_of_mem _ h
      by_cases hm : i + 1 ∈ S
      · rw [if_pos hm, if_pos (hmem.mpr hm)]
      · rw [if_neg hm, if_neg (fun hc => hm (hmem.mp hc))]
    · rw [if_neg hilt, if_neg hilt]

theorem uploadChunk_step (now1 : ℚ) (B : Nat) (jsonOk : Bytes → Bool)
    (src0 rid0 src rid uid ct : String) (req0 : UploadReq) (created : ℚ)
    (n : Nat) (pay : Nat → Bytes) (S : List Nat) (s : Nat)
    (jobs0 : List Job) (outs0 : List NodeOut)
    (huid : uid ≠ "") (hs1 : 1 ≤ s) (hsn : s ≤ n) (hnotin : s ∉ S)
    (hsize : (pay s).length ≤ B) :
    handleUploadChunk now1 B jsonOk
        { uploadSessions := [(uid, entryAt src0 rid0 req0 ct n pay created now1 S)],
          jobs := jobs0, outs := outs0 } src rid (chunkArrival uid s (pay s)) =
      { uploadSessions := [(uid, entryAt src0 rid0 req0 ct n pay created now1 (s :: S))],
        jobs := jobs0, outs := outs0 } := by
  have hgetD : (chunksOf n pay S).getD (s - 1) none = none := by
    rw [chunksOf_getD n pay S (s - 1) (by omega), show s - 1 + 1 = s by omega,
      if_neg hnotin]
  unfold handleUploadChunk
  simp only [chunkArrival, orS, if_neg huid, lookupA_single]
  unfold uploadChunkPlace
  simp only [entryAt, Bool.not_true, Bool.false_eq_true, if_false,
    Bool.false_eq_true, and_false, false_and, and_self]
  rw [if_neg (by omega : ¬(pay s).length > B),
    if_neg (by omega : ¬(n > 0 ∧ (s < 1 ∨ s > n))),
    if_pos (by omega : n > 0), hgetD]
  simp only [if_pos rfl]
  rw [chunksOf_set n pay S s hs1 hsn]
  simp [setA_single, List.isEmpty]

theorem processChunks_graph (now1 : ℚ) (B : Nat) (jsonOk : Bytes → Bool)
    (src0 rid0 src rid uid ct : String) (req0 : UploadReq) (created : ℚ)
    (n : Nat) (pay : Nat → Bytes) (jobs0 : List Job) (outs0 : List NodeOut)
    (huid : uid ≠ "")
    (hsize : ∀ s, 1 ≤ s → s ≤ n → (pay s).length ≤ B)
    (L : List (Nat × Bytes)) :
    ∀ (S : List Nat),
      (∀ m ∈ L, 1 ≤ m.1 ∧ m.1 ≤ n ∧ m.2 = pay m.1) →
      (S ++ L.map Prod.fst).Nodup →
      processChunks now1 B jsonOk src rid uid
          { uploadSessions := [(uid, entryAt src0 rid0 req0 ct n pay created now1 S)],
            jobs := jobs0, outs := outs0 } L =
        { uploadSessions := [(uid, entryAt src0 rid0 req0 ct n pay created now1
            ((L.map Prod.fst).reverse ++ S))],
          jobs := jobs0, outs := outs0 } := by
  induction L with
  | nil =>
      intro S _ _
      simp [processChunks]
  | cons m L' ih =>
      intro S hmem hnodup
      obtain ⟨hm1, hmn, hmp⟩ := hmem m (List.mem_cons_self _ _)
      have hnotin : m.1 ∉ S := by
        rcases List.nodup_append.mp (by simpa using hnodup) with ⟨_, _, hdisj⟩
        intro hc
        exact hdisj hc (List.mem_cons_self _ _)
      have hnodup' : ((m.1 :: S) ++ L'.map Prod.fst).Nodup := by
        have hperm : (S ++ m.1 :: L'.map Prod.fst).Perm ((m.1 :: S) ++ L'.map Prod.fst) :=
          List.perm_middle
        exact hperm.nodup (by simpa using hnodup)
      have hstep := uploadChunk_step now1 B jsonOk src0 rid0 src rid uid ct req0
        created n pay S m.1 jobs0 outs0 huid hm1 hmn hnotin (hsize m.1 hm1 hmn)
      simp only [processChunks, List.foldl_cons] at *
      rw [show chunkArrival uid m.1 m.2 = chunkArrival uid m.1 (pay m.1) by rw [hmp],
        hstep]
      have := ih (m.1 :: S) (fun x hx => hmem x (List.mem_cons_of_mem _ hx)) hnodup'
      simp only [processChunks] at this
      rw [this]
      simp [List.reverse_cons, List.append_assoc]

theorem handleUploadBegin_empty (now0 now1 : ℚ) (src0 rid0 uid ct : String)
    (req0 : UploadReq) (n : Nat) (pay : Nat → Bytes)
    (hn : 0 < n) (huid : uid ≠ "") :
    handleUploadBegin now0 { uploadSessions := [], jobs := [], outs := [] } src0 rid0
        { uploadId := uid, req := some req0, total := n, contentType := ct } =
      { uploadSessions := [(uid, entryAt src0 rid0 req0 ct n pay now0 now1 [])],
        jobs := [], outs := [] } := by
  unfold handleUploadBegin
  simp only [orS, if_neg huid, lookupA, List.find?_nil, Option.map_none, setA,
    Option.isSome_none, Bool.false_eq_true, if_false, List.nil_append, entryAt,
    chunksOf_nil]
  simp [hn]

/-- Attaching a body at finalization preserves the request's headers and
records a body whose underlying bytes are exactly the assembled data,
on all three branches of router.py:4638-4645. -/
theorem attachUploadBody_spec (jsonOk : Bytes → Bool) (e : UploadEntry) (d : Bytes) :
    ∃ b : UploadBody,
      attachUploadBody jsonOk e d = { headers := (e.req.getD {}).headers, body := some b } ∧
      b.data = d := by
  unfold attachUploadBody
  by_cases h1 : strContainsSub
      (orS e.ctype ((headerGet (e.req.getD {}).headers "Content-Type").getD ""))
      "application/json" = true
  · rw [if_pos h1]
    by_cases h2 : jsonOk d = true
    · exact ⟨.jsonOf d, by rw [if_pos h2], rfl⟩
    · exact ⟨.b64Of d, by rw [if_neg h2], rfl⟩
  · exact ⟨.b64Of d, by rw [if_neg h1], rfl⟩

theorem missingSlots_full (n : Nat) (pay : Nat → Bytes) (F : List Nat)
    (hfull : ∀ i, i < n → (i + 1) ∈ F) :
    missingSlots (chunksOf n pay F) = [] := by
  unfold missingSlots
  rw [List.filterMap_eq_nil_iff]
  intro i hi
  rw [chunksOf_length] at hi
  have hi' : i < n := List.mem_range.mp hi
  rw [chunksOf_getD n pay F i hi', if_pos (hfull i hi')]
  simp

theorem chunksOf_filterMap_full (n : Nat) (pay : Nat → Bytes) (F : List Nat)
    (hfull : ∀ i, i < n → (i + 1) ∈ F) :
    (chunksOf n pay F).filterMap id = (List.range n).map (fun i => pay (i + 1)) := by
  unfold chunksOf
  rw [List.filterMap_map]
  have hcongr : ∀ i ∈ List.range n,
      (id ∘ fun i => if (i + 1) ∈ F then some (pay (i + 1)) else none) i =
        (some ∘ fun i => pay (i + 1)) i := by
    intro i hi
    simp only [Function.comp_apply, id]
    rw [if_pos (hfull i (List.mem_range.mp hi))]
  rw [List.filterMap_congr hcongr, List.filterMap_eq_map]

theorem handleUploadEnd_full (now2 : ℚ) (jsonOk : Bytes → Bool)
    (src0 rid0 srcq ridq uid ct : String) (req0 : UploadReq) (created now1 : ℚ)
    (n : Nat) (pay : Nat → Bytes) (F : List Nat)
    (jobs0 : List Job) (outs0 : List NodeOut)
    (huid : uid ≠ "") (hlen : F.length = n)
    (hfull : ∀ i, i < n → (i + 1) ∈ F) :
    ∃ b : UploadBody,
      b.data = ((List.range n).map (fun i => pay (i + 1))).flatten ∧
      handleUploadEnd now2 jsonOk
          { uploadSessions := [(uid, entryAt src0 rid0 req0 ct n pay created now1 F)],
            jobs := jobs0, outs := outs0 } srcq ridq uid =
        { uploadSessions := [],
          jobs := jobs0 ++
            [{ src := src0,
               rid := rid0,
               req := { headers := req0.headers, body := some b } }],
          outs := outs0 } := by
  obtain ⟨b, hab, hdata⟩ := attachUploadBody_spec jsonOk
    { entryAt src0 rid0 req0 ct n pay created now1 F with
        ended := true,
        endReceivedTime := some now2 }
    ((chunksOf n pay F).filterMap id).flatten
  refine ⟨b, ?_, ?_⟩
  · rw [hdata, chunksOf_filterMap_full n pay F hfull]
  · unfold handleUploadEnd
    simp only [orS, if_neg huid, lookupA_single, ite_self]
    unfold finalizeUpload
    simp only [entryAt] at hab ⊢
    rw [missingSlots_full n pay F hfull]
    simp only [ne_eq, not_true_eq_false, false_and, if_false, not_false_eq_true,
      true_and, if_neg (by simp : ¬(False ∧ True))]
    rw [hab]
    simp [setA_single, eraseA_single, hlen]

theorem chunksOf_full (n : Nat) (pay : Nat → Bytes) (F : List Nat)
    (hfull : ∀ i, i < n → (i + 1) ∈ F) :
    chunksOf n pay F = (List.range n).map (fun i => some (pay (i + 1))) := by
  unfold chunksOf
  apply List.map_congr_left
  intro i hi
  rw [if_pos (hfull i (List.mem_range.mp hi))]

/-- A session that has received every one of its `n > 0` chunks is the
same record no matter in which order the chunks arrived. -/
theorem entryAt_full_eq (src0 rid0 : String) (req0 : UploadReq) (ct : String)
    (n : Nat) (pay : Nat → Bytes) (created now1 : ℚ) (F : List Nat)
    (hn : 0 < n) (hlen : F.length = n)
    (hfull : ∀ i, i < n → (i + 1) ∈ F) :
    entryAt src0 rid0 req0 ct n pay created now1 F =
      { src := src0, rid := rid0, req := some req0,
        chunks := (List.range n).map (fun i => some (pay (i + 1))),
        total := n, got := n, ended := false, ctype := ct, created := created,
        lastChunk := some now1, endReceivedTime := none,
        missingRequested := none } := by
  have hne : F.isEmpty = false := by
    cases F with
    | nil => simp at hlen; omega
    | cons a t => rfl
  unfold entryAt
  rw [chunksOf_full n pay F hfull, hlen, hne]
  simp

/-- C4: starting from an `http.upload.begin{total := n}`, feeding the
`n` chunks in any arrival order that is a permutation of
`(1, pay 1), ..., (n, pay n)` and then `http.upload.end` always
produces the same final state (order independence), and that state
enqueues exactly one HTTP job whose attached body bytes are the
concatenation `pay 1 ++ pay 2 ++ ... ++ pay n` of the decoded chunk
payloads in sequence-number order, with the session dropped and no
error or resend message emitted. -/
theorem c4_upload_order_independence
    (now0 now1 now2 : ℚ) (B : Nat) (jsonOk : Bytes → Bool)
    (src0 rid0 srcq ridq uid ct : String) (req0 : UploadReq)
    (n : Nat) (pay : Nat → Bytes) (L1 L2 : List (Nat × Bytes))
    (huid : uid ≠ "") (hn : 0 < n)
    (hsize : ∀ s, 1 ≤ s → s ≤ n → (pay s).length ≤ B)
    (hp1 : L1.Perm (uploadGraph n pay)) (hp2 : L2.Perm (uploadGraph n pay)) :
    (handleUploadEnd now2 jsonOk
        (processChunks now1 B jsonOk srcq ridq uid
          (handleUploadBegin now0 { uploadSessions := [], jobs := [], outs := [] }
            src0 rid0 { uploadId := uid, req := some req0, total := n, contentType := ct })
          L1) srcq ridq uid =
      handleUploadEnd now2 jsonOk
        (processChunks now1 B jsonOk srcq ridq uid
          (handleUploadBegin now0 { uploadSessions := [], jobs := [], outs := [] }
            src0 rid0 { uploadId := uid, req := some req0, total := n, contentType := ct })
          L2) srcq ridq uid) ∧
    (∃ b : UploadBody,
      b.data = ((List.range n).map (fun i => pay (i + 1))).flatten ∧
      handleUploadEnd now2 jsonOk
          (processChunks now1 B jsonOk srcq ridq uid
            (handleUploadBegin now0 { uploadSessions := [], jobs := [], outs := [] }
              src0 rid0 { uploadId := uid, req := some req0, total := n, contentType := ct })
            L1) srcq ridq uid =
        { uploadSessions := [],
          jobs := [{ src := src0,
                     rid := rid0,
                     req := { headers := req0.headers, body := some b } }],
          outs := [] }) := by
  have hgraphmap : (uploadGraph n pay).map Prod.fst = (List.range n).map (fun k => k + 1) := by
    simp [uploadGraph, List.map_map]
  have hrangenodup : ((List.range n).map (fun k => k + 1)).Nodup :=
    List.Nodup.map (fun a b h => by omega) (List.nodup_range n)
  have key : ∀ L : List (Nat × Bytes), L.Perm (uploadGraph n pay) →
      processChunks now1 B jsonOk srcq ridq uid
          (handleUploadBegin now0 { uploadSessions := [], jobs := [], outs := [] }
            src0 rid0 { uploadId := uid, req := some req0, total := n, contentType := ct })
          L =
        { uploadSessions := [(uid,
            { src := src0, rid := rid0, req := some req0,
              chunks := (List.range n).map (fun i => some (pay (i + 1))),
              total := n, got := n, ended := false, ctype := ct, created := now0,
              lastChunk := some now1, endReceivedTime := none,
              missingRequested := none })],
          jobs := [], outs := [] } := by
    intro L hp
    have hmapperm : (L.map Prod.fst).Perm ((List.range n).map (fun k => k + 1)) := by
      rw [← hgraphmap]
      exact hp.map Prod.fst
    have hmem : ∀ m ∈ L, 1 ≤ m.1 ∧ m.1 ≤ n ∧ m.2 = pay m.1 := by
      intro m hm
      have : m ∈ uploadGraph n pay := hp.mem_iff.mp hm
      rcases List.mem_map.mp this with ⟨k, hk, hmk⟩
      have hkn : k < n := List.mem_range.mp hk
      refine ⟨?_, ?_, ?_⟩
      · rw [← hmk]
        simp
      · rw [← hmk]
        simp
        omega
      · rw [← hmk]
    have hnodup : (([] : List Nat) ++ L.map Prod.fst).Nodup := by
      rw [List.nil_append]
      exact hmapperm.symm.nodup hrangenodup
    have hlen : ((L.map Prod.fst).reverse.length) = n := by
      rw [List.length_reverse, hmapperm.length_eq, List.length_map, List.length_range]
    have hfull : ∀ i, i < n → (i + 1) ∈ (L.map Prod.fst).reverse := by
      intro i hi
      rw [List.mem_reverse]
      exact hmapperm.mem_iff.mpr (List.mem_map.mpr ⟨i, List.mem_range.mpr hi, rfl⟩)
    rw [handleUploadBegin_empty now0 now1 src0 rid0 uid ct req0 n pay hn huid,
      processChunks_graph now1 B jsonOk src0 rid0 srcq ridq uid ct req0 now0 n pay
        [] [] huid hsize L [] hmem hnodup, List.append_nil,
      entryAt_full_eq src0 rid0 req0 ct n pay now0 now1 ((L.map Prod.fst).reverse)
        hn hlen hfull]
  have hcanlen : (((List.range n).map (fun k => k + 1)).length) = n := by
    rw [List.length_map, List.length_range]
  have hcanfull : ∀ i, i < n → (i + 1) ∈ (List.range n).map (fun k => k + 1) := by
    intro i hi
    exact List.mem_map.mpr ⟨i, List.mem_range.mpr hi, rfl⟩
  constructor
  · rw [key L1 hp1, key L2 hp2]
  · obtain ⟨b, hdata, hend⟩ := handleUploadEnd_full now2 jsonOk src0 rid0 srcq ridq
      uid ct req0 now0 now1 n pay ((List.range n).map (fun k => k + 1)) [] []
      huid hcanlen hcanfull
    refine ⟨b, hdata, ?_⟩
    rw [key L1 hp1, ← entryAt_full_eq src0 rid0 req0 ct n pay now0 now1
      ((List.range n).map (fun k => k + 1)) hn hcanlen hcanfull]
    rw [hend]
    rfl

/-- Witness for C4: a two-chunk upload delivered in order 1,2 and in
order 2,1 finalizes to the same state. -/
theorem c4_upload_order_independence_witness :
    handleUploadEnd 3 (fun _ => false)
        (processChunks 2 10 (fun _ => false) "q" "rq" "u4"
          (handleUploadBegin 1 { uploadSessions := [], jobs := [], outs := [] }
            "s4" "r4" { uploadId := "u4", req := some {}, total := 2, contentType := "" })
          [(1, [1]), (2, [2])]) "q" "rq" "u4" =
      handleUploadEnd 3 (fun _ => false)
        (processChunks 2 10 (fun _ => false) "q" "rq" "u4"
          (handleUploadBegin 1 { uploadSessions := [], jobs := [], outs := [] }
            "s4" "r4" { uploadId := "u4", req := some {}, total := 2, contentType := "" })
          [(2, [2]), (1, [1])]) "q" "rq" "u4" :=
  (c4_upload_order_independence 1 2 3 10 (fun _ => false) "s4" "r4" "q" "rq" "u4" ""
    {} 2 (fun s => [s]) [(1, [1]), (2, [2])] [(2, [2]), (1, [1])]
    (by decide) (by omega) (fun s _ _ => by simp)
    (by have : uploadGraph 2 (fun s => [s]) = [(1, [1]), (2, [2])] := rfl
        rw [this])
    (by have : uploadGraph 2 (fun s => [s]) = [(1, [1]), (2, [2])] := rfl
        rw [this]
        exact List.Perm.swap _ _ _)).1

/-! ## C5: request-id handling in `_handle_dm`

The generic request branch of `_handle_dm` (router.py:3999-4005)
extracts `req`, runs `_check_assignment` (router.py:4070-4093, with the
Router's `assignment_lookup` answered by an oracle) and on success
calls `_enqueue_request` (router.py:4100-4105), which unconditionally
puts a job on the queue.  The node keeps no record of request ids — no
set of seen or in-flight ids exists anywhere in the class — so nothing
distinguishes a fresh request id from a duplicate. -/

/-- A queued generic HTTP job, with the request descriptor left
opaque. -/
structure DmJob where
  src : String
  rid : String
  reqName : String
deriving DecidableEq

/-- Messages emitted on this path: the `relay.response` a worker sends
when it completes a job, and the `relay.redirect` of a failed
assignment check. -/
inductive DmOut
  | response (dst : String) (rid : String) (ok : Bool)
  | redirect (dst : String) (service : String) (rid : String)
      (node : String) (addr : Option String)
deriving DecidableEq

/-- The node state this path touches: the job queue and the emitted
messages. -/
structure DmState where
  jobs : List DmJob := []
  outs : List DmOut := []
deriving DecidableEq

/-- `_check_assignment` (router.py:4070-4093): when the service is
assigned to a different node, emit a single redirect and report
failure; otherwise report success. -/
def checkAssignment (selfNode : String) (lookupNode : Option String × Option String)
    (service : Option String) (st : DmState) (src rid : String) : Bool × DmState :=
  match service with
  | none => (true, st)
  | some svc =>
      match lookupNode.1 with
      | some nodeId =>
          if nodeId ≠ selfNode then
            (false, { st with outs := st.outs ++
                [.redirect src svc rid nodeId lookupNode.2] })
          else (true, st)
      | none => (true, st)

/-- The `relay.http` / `http.request` / `relay.fetch` branch of
`_handle_dm` (router.py:3999-4005) followed by `_enqueue_request`
(router.py:4100-4101): when the assignment check passes, the job is
enqueued unconditionally — the current queue, past jobs and past
responses are never consulted. -/
def handleDmHttpRequest (selfNode : String) (lookupNode : Option String × Option String)
    (st : DmState) (src rid : String) (service : Option String) (req : String) :
    DmState :=
  let r := checkAssignment selfNode lookupNode service st src rid
  if r.1 then
    { r.2 with jobs := r.2.jobs ++ [{ src := src, rid := rid, reqName := req }] }
  else r.2

/-- A worker completing the front job (`_http_worker`,
router.py:4337-4376): the job leaves the queue and exactly one
`relay.response` for its request id is emitted. -/
def workerComplete (st : DmState) : DmState :=
  match st.jobs with
  | [] => st
  | j :: rest => { jobs := rest, outs := st.outs ++ [.response j.src j.rid true] }

/-- C5 counterexample: the claim says a request duplicating the
`request_id` of a completed request is ignored silently (no second job,
no second response), and that a `request_id` maps to at most one
in-flight job.  On the code: after request `r1` is enqueued and
completed, the identical request is enqueued again and answered again;
and two arrivals before the worker runs leave two queued jobs with the
same `request_id`. -/
theorem c5_duplicate_not_ignored :
    (handleDmHttpRequest "n1" (some "n1", some "addr")
        (workerComplete
          (handleDmHttpRequest "n1" (some "n1", some "addr")
            { jobs := [], outs := [] } "peer" "r1" (some "svc") "q"))
        "peer" "r1" (some "svc") "q").jobs =
      [{ src := "peer", rid := "r1", reqName := "q" }] ∧
    (workerComplete
      (handleDmHttpRequest "n1" (some "n1", some "addr")
        (workerComplete
          (handleDmHttpRequest "n1" (some "n1", some "addr")
            { jobs := [], outs := [] } "peer" "r1" (some "svc") "q"))
        "peer" "r1" (some "svc") "q")).outs =
      [DmOut.response "peer" "r1" true, DmOut.response "peer" "r1" true] ∧
    (handleDmHttpRequest "n1" (some "n1", some "addr")
        (handleDmHttpRequest "n1" (some "n1", some "addr")
          { jobs := [], outs := [] } "peer" "r1" (some "svc") "q")
        "peer" "r1" (some "svc") "q").jobs =
      [{ src := "peer", rid := "r1", reqName := "q" },
       { src := "peer", rid := "r1", reqName := "q" }] := by
  refine ⟨?_, ?_, ?_⟩ <;> rfl

/-- C5 amended: request ids are not tracked.  Whenever the assignment
check passes, the inbound request is appended to the job queue as a new
job regardless of any earlier request with the same id — duplicates are
re-processed and re-answered, not ignored. -/
theorem c5_enqueue_unconditional (selfNode : String)
    (lookupNode : Option String × Option String) (st : DmState)
    (src rid : String) (service : Option String) (req : String)
    (hok : (checkAssignment selfNode lookupNode service st src rid).1 = true) :
    (handleDmHttpRequest selfNode lookupNode st src rid service req).jobs =
      st.jobs ++ [{ src := src, rid := rid, reqName := req }] := by
  have hst : (checkAssignment selfNode lookupNode service st src rid).2 = st := by
    unfold checkAssignment
    rcases service with _ | svc
    · rfl
    · rcases h1 : lookupNode.1 with _ | nodeId
      · rfl
      · by_cases he : nodeId ≠ selfNode
        · exfalso
          unfold checkAssignment at hok
          rw [h1] at hok
          simp [he] at hok
        · simp [he]
  unfold handleDmHttpRequest
  simp only [hok, hst, if_true]

/-- Witness for C5's amended statement at a concrete state that already
holds a completed duplicate of the same request id. -/
theorem c5_enqueue_unconditional_witness :
    (handleDmHttpRequest "n1" (some "n1", none)
        { jobs := [], outs := [DmOut.response "peer" "r9" true] }
        "peer" "r9" (some "svc") "q").jobs =
      [] ++ [{ src := "peer", rid := "r9", reqName := "q" }] :=
  c5_enqueue_unconditional "n1" (some "n1", none)
    { jobs := [], outs := [DmOut.response "peer" "r9" true] }
    "peer" "r9" (some "svc") "q" (by rfl)

/-! ## C1: `_stream_lines` end-message emission (router.py:4881-4961)

The line-stream loop decodes chunks incrementally, splits the text
buffer at newlines, batches non-blank lines with 1-based sequence
numbers, flushes a batch at `batch_lines` lines or `batch_latency`
seconds since the last flush, and sends a keepalive when the heartbeat
deadline passes.  Wall-clock reads are modelled by a timestamp carried
with each delivered chunk (and one for the end of the iteration);
whether `json.loads(line)` yields a dict with `done is True`
(router.py:4920-4925) is the oracle `lineDone`.  A transport exception
can interrupt `resp.iter_content` at any point, so a run is a list of
delivered chunks followed by either normal completion or an exception.

The critical control flow: the `except` handler (router.py:4938-4950)
emits `relay.response.end{ok:false}` and then executes a bare `return`;
the `ok:true` end emission (router.py:4951-4960) sits after that
`return` inside the same `except` block and is unreachable, so the
success path emits no `relay.response.end` at all. -/

/-- Configuration of the lines framing: `batch_lines = 24`,
`batch_latency = 0.08`, `heartbeat_s = 10` by default
(router.py:3805-3807). -/
structure LinesCfg where
  batchLines : Nat
  batchLatency : ℚ
  heartbeatS : ℚ

/-- One delivered chunk of the upstream body: its byte count, its
decoded text, and the wall-clock time of the iteration that handles
it. -/
structure ChunkIn where
  nbytes : Nat
  text : String
  now : ℚ

/-- The messages `_stream_lines` can emit. -/
inductive LMsg
  | linesMsg (rid : String) (batch : List (Nat × ℚ × String))
  | keepalive (rid : String) (ts : ℚ)
  | endMsg (rid : String) (ok : Bool) (bytes : Nat) (lastSeq : Nat)
      (nlines : Nat) (error : Option String) (doneSeen : Bool)
deriving DecidableEq

/-- The loop state of `_stream_lines` (router.py:4882-4890), plus the
trace of messages handed to `bridge.dm`. -/
structure LState where
  textBuf : String
  batch : List (Nat × ℚ × String)
  seq : Nat
  totalBytes : Nat
  totalLines : Nat
  lastFlush : ℚ
  hbDeadline : ℚ
  doneSeen : Bool
  out : List LMsg

/-- `flush_batch` (router.py:4892-4903): emit the batch if non-empty
and reset the flush clock. -/
def flushBatch (rid : String) (now : ℚ) (st : LState) : LState :=
  if st.batch = [] then st
  else { st with out := st.out ++ [.linesMsg rid st.batch], batch := [],
                 lastFlush := now }

/-- The body of the inner line loop for one complete line
(router.py:4916-4928): skip blank lines, otherwise assign the next
sequence number, record a done marker, append to the batch and flush at
`batch_lines` lines or `batch_latency` elapsed. -/
def processLine (cfg : LinesCfg) (lineDone : String → Bool) (rid : String)
    (now : ℚ) (st : LState) (line : String) : LState :=
  if line.trim = "" then st
  else
    let st1 : LState :=
      { st with
          seq := st.seq + 1,
          totalLines := st.totalLines + 1,
          doneSeen := st.doneSeen || lineDone line,
          batch := st.batch ++ [(st.seq + 1, now, line)] }
    if cfg.batchLines ≤ st1.batch.length ∨ cfg.batchLatency ≤ now - st1.lastFlush then
      flushBatch rid now st1
    else st1

/-- One iteration of the outer `for chunk in resp.iter_content` loop
(router.py:4906-4931): a non-empty chunk is decoded and appended to the
text buffer, every complete line is processed, the remainder stays
buffered; then the heartbeat deadline is checked. -/
def processChunkL (cfg : LinesCfg) (lineDone : String → Bool) (rid : String)
    (st : LState) (c : ChunkIn) : LState :=
  let st1 :=
    if c.nbytes ≠ 0 then
      let parts := (st.textBuf ++ c.text).splitOn "\n"
      let st' := parts.dropLast.foldl (processLine cfg lineDone rid c.now)
        { st with textBuf := "", totalBytes := st.totalBytes + c.nbytes }
      { st' with textBuf := (parts.getLast?).getD "" }
    else st
  if st1.hbDeadline ≤ c.now then
    { st1 with out := st1.out ++ [.keepalive rid c.now],
               hbDeadline := c.now + cfg.heartbeatS }
  else st1

/-- `_stream_lines` (router.py:4881-4961) over a run: `startNow` is the
wall clock at entry, `chunks` the delivered chunks, and `fail`
indicates whether iteration then raised (with the exception text) or
completed, in which case the decoder tail is flushed (`endNow` is the
wall clock there).  Returns the emitted messages and the Python return
value (`None` on the exception path, reached by the bare `return` at
router.py:4950; the `ok:true` end after it is dead code). -/
def streamLines (cfg : LinesCfg) (lineDone : String → Bool) (rid : String)
    (startNow : ℚ) (chunks : List ChunkIn) (decTail : String) (endNow : ℚ)
    (fail : Option String) : List LMsg × Option Nat :=
  let st0 : LState :=
    { textBuf := "", batch := [], seq := 0, totalBytes := 0, totalLines := 0,
      lastFlush := startNow, hbDeadline := startNow + cfg.heartbeatS,
      doneSeen := false, out := [] }
  let stC := chunks.foldl (processChunkL cfg lineDone rid) st0
  match fail with
  | some e =>
      (stC.out ++ [.endMsg rid false stC.totalBytes stC.seq stC.totalLines
        (some e) stC.doneSeen], none)
  | none =>
      let stT :=
        if decTail.trim ≠ "" then
          { stC with
              seq := stC.seq + 1,
              totalLines := stC.totalLines + 1,
              batch := stC.batch ++ [(stC.seq + 1, endNow, decTail)] }
        else stC
      let stF := flushBatch rid endNow stT
      (stF.out, some stF.totalBytes)

/-- Whether a message is a `relay.response.end`. -/
def LMsg.isEnd : LMsg → Bool
  | .endMsg _ _ _ _ _ _ _ => true
  | _ => false

theorem countEnd_flushBatch (rid : String) (now : ℚ) (st : LState) :
    ((flushBatch rid now st).out.countP LMsg.isEnd) = st.out.countP LMsg.isEnd := by
  unfold flushBatch
  split
  · rfl
  · simp [List.countP_append, LMsg.isEnd]

theorem countEnd_processLine (cfg : LinesCfg) (lineDone : String → Bool)
    (rid : String) (now : ℚ) (st : LState) (line : String) :
    ((processLine cfg lineDone rid now st line).out.countP LMsg.isEnd) =
      st.out.countP LMsg.isEnd := by
  unfold processLine
  split
  · rfl
  · simp only []
    split
    · rw [countEnd_flushBatch]
    · rfl

theorem countEnd_foldl_processLine (cfg : LinesCfg) (lineDone : String → Bool)
    (rid : String) (now : ℚ) (lines : List String) :
    ∀ st : LState,
      ((lines.foldl (processLine cfg lineDone rid now) st).out.countP LMsg.isEnd) =
        st.out.countP LMsg.isEnd := by
  induction lines with
  | nil => intro st; rfl
  | cons l ls ih =>
      intro st
      rw [List.foldl_cons, ih (processLine cfg lineDone rid now st l),
        countEnd_processLine]

theorem countEnd_processChunkL (cfg : LinesCfg) (lineDone : String → Bool)
    (rid : String) (st : LState) (c : ChunkIn) :
    ((processChunkL cfg lineDone rid st c).out.countP LMsg.isEnd) =
      st.out.countP LMsg.isEnd := by
  unfold processChunkL
  simp only []
  split
  · split
    · simp only [List.countP_append]
      rw [countEnd_foldl_processLine]
      simp [LMsg.isEnd]
    · simp only []
      rw [countEnd_foldl_processLine]
  · split
    · simp [List.countP_append, LMsg.isEnd]
    · rfl

theorem countEnd_foldl_chunks (cfg : LinesCfg) (lineDone : String → Bool)
    (rid : String) (chunks : List ChunkIn) :
    ∀ st : LState,
      ((chunks.foldl (processChunkL cfg lineDone rid) st).out.countP LMsg.isEnd) =
        st.out.countP LMsg.isEnd := by
  induction chunks with
  | nil => intro st; rfl
  | cons c cs ih =>
      intro st
      rw [List.foldl_cons, ih (processChunkL cfg lineDone rid st c),
        countEnd_processChunkL]

/-- C1: the claim says every line-stream response emits exactly one
`relay.response.end` — on success and on failure alike.  On the code,
the success path emits none at all: the only reachable
`relay.response.end` emission sits in the `except` handler
(router.py:4939-4948, `ok:false`), the handler then executes a bare
`return` (router.py:4950), and the `ok:true` end emission after that
`return` (router.py:4951-4959) is dead code.  For every run: a
successfully completed stream emits zero `end` messages (and returns
`total_bytes`), while an interrupted stream emits exactly one `end`,
with `ok:false` and `last_seq` equal to the final line counter, and
returns Python `None`. -/
theorem c1_stream_lines_missing_end (cfg : LinesCfg) (lineDone : String → Bool)
    (rid : String) (startNow : ℚ) (chunks : List ChunkIn) (decTail : String)
    (endNow : ℚ) :
    ((streamLines cfg lineDone rid startNow chunks decTail endNow none).1.countP
        LMsg.isEnd = 0) ∧
    (∀ e : String,
      (streamLines cfg lineDone rid startNow chunks decTail endNow (some e)).1.countP
          LMsg.isEnd = 1 ∧
      (streamLines cfg lineDone rid startNow chunks decTail endNow (some e)).2 = none) := by
  constructor
  · unfold streamLines
    simp only
    rw [countEnd_flushBatch]
    split
    · simp only
      rw [countEnd_foldl_chunks]
      rfl
    · rw [countEnd_foldl_chunks]
      rfl
  · intro e
    constructor
    · unfold streamLines
      simp only [List.countP_append]
      rw [countEnd_foldl_chunks]
      rfl
    · rfl

/-! ## C9 / C10: `_send_simple_response` (router.py:4744-4779)

The single-response framing copies the upstream status code into the
`relay.response` envelope and hard-codes `ok: true`; `ok: false`
envelopes are produced only by the relay itself (the worker's
exception handler, router.py:4358-4368, and `_send_upload_error`,
router.py:4472-4485).  The body handling: `raw = resp.content` is
truncated to `max_body` and the flag recorded; if the content type
contains `application/json` the full body is parsed with `resp.json()`
(which reads the untruncated content) and embedded structurally after
the targeted redaction `_sanitize_response_json`; only on parse
failure or non-JSON content is the truncated raw body base64-embedded.
The JSON parser and the redaction are oracles (`jsonParse`,
`sanitize`, with the request baked into `sanitize`). -/

/-- The parts of a `requests.Response` this path reads. -/
structure HttpResp where
  statusCode : Nat
  headers : List (String × String)
  content : Bytes

/-- `resp.headers.get(...)` — requests uses a case-insensitive header
dict. -/
def headerGetCI (hs : List (String × String)) (k : String) : Option String :=
  (hs.find? (fun p => lowerStr p.1 == lowerStr k)).map Prod.snd

/-- `(resp.headers.get("Content-Type") or "").lower()`
(router.py:4761). -/
def respCType (resp : HttpResp) : String :=
  lowerStr ((headerGetCI resp.headers "Content-Type").getD "")

/-- The `relay.response` single-response envelope, generic in the type
of parsed JSON values; `bodyB64` carries the bytes the base64 encoding
was built from. -/
structure SimplePayload (J : Type) where
  ok : Bool
  status : Nat
  headers : List (String × String)
  json : Option J
  bodyB64 : Option Bytes
  truncated : Bool
  error : Option String
deriving DecidableEq

/-- `_send_simple_response` (router.py:4744-4772), up to handing the
payload to `bridge.dm`.  `jsonParse` stands for `resp.json()` (applied
to the full content; `none` = raised), `sanitize` for
`_sanitize_response_json` with the request descriptor applied. -/
def sendSimpleResponse {J : Type} (maxBody : Nat) (jsonParse : Bytes → Option J)
    (sanitize : J → J) (resp : HttpResp) : SimplePayload J :=
  let raw := resp.content
  let truncated := maxBody < raw.length
  let raw1 := if maxBody < raw.length then raw.take maxBody else raw
  let base : SimplePayload J :=
    { ok := true, status := resp.statusCode,
      headers := resp.headers.map (fun p => (lowerStr p.1, p.2)),
      json := none, bodyB64 := none, truncated := truncated, error := none }
  if strContainsSub (respCType resp) "application/json" then
    match jsonParse resp.content with
    | some j => { base with json := some (sanitize j) }
    | none => { base with bodyB64 := some raw1 }
  else if raw1.length ≤ maxBody then { base with bodyB64 := some raw1 }
  else { base with bodyB64 := some raw1 }

/-- The error envelope of the worker's exception handler
(router.py:4358-4368): `ok:false`, `status:0`. -/
def workerErrorPayload (J : Type) (e : String) : SimplePayload J :=
  { ok := false, status := 0, headers := [], json := none, bodyB64 := none,
    truncated := false, error := some e }

/-- C9: for every completed upstream exchange relayed in the
single-response framing, the envelope has `ok: true` and carries the
upstream status code unchanged — whatever that status is, 4xx and 5xx
included; `ok: false` appears only in relay-generated error envelopes
(the worker's exception handler and the upload error path, both of
which always set `ok: false`). -/
theorem c9_ok_true_regardless_of_status {J : Type} (maxBody : Nat)
    (jsonParse : Bytes → Option J) (sanitize : J → J) (resp : HttpResp) :
    ((sendSimpleResponse maxBody jsonParse sanitize resp).ok = true ∧
      (sendSimpleResponse maxBody jsonParse sanitize resp).status = resp.statusCode) ∧
    (∀ e : String, (workerErrorPayload J e).ok = false) ∧
    (∀ (st : UpState) (src rid msg : String) (status : Nat),
      (sendUploadError st src rid msg status).outs =
        st.outs ++ [NodeOut.response src rid false status (some msg)]) := by
  refine ⟨?_, fun e => rfl, fun st src rid msg status => rfl⟩
  unfold sendSimpleResponse
  simp only []
  split
  · rcases jsonParse resp.content with _ | j <;> simp
  · split <;> simp

/-- C10: in the single-response framing, when the upstream content type
contains `application/json` and `resp.json()` succeeds, the envelope
carries the complete parsed body (after the targeted redaction) in its
`json` field with no `body_b64`, even when the raw body exceeds
`max_body` — the `truncated` flag reports the raw-body overflow
independently; base64 truncation to `max_body` applies only on the
parse-failure and non-JSON paths. -/
theorem c10_json_not_truncated {J : Type} (maxBody : Nat)
    (jsonParse : Bytes → Option J) (sanitize : J → J) (resp : HttpResp) :
    (∀ j : J, strContainsSub (respCType resp) "application/json" = true →
      jsonParse resp.content = some j →
      (sendSimpleResponse maxBody jsonParse sanitize resp).json = some (sanitize j) ∧
      (sendSimpleResponse maxBody jsonParse sanitize resp).bodyB64 = none ∧
      ((sendSimpleResponse maxBody jsonParse sanitize resp).truncated =
        (maxBody < resp.content.length))) ∧
    (strContainsSub (respCType resp) "application/json" = true →
      jsonParse resp.content = none →
      (sendSimpleResponse maxBody jsonParse sanitize resp).bodyB64 =
        some (resp.content.take maxBody) ∧
      (sendSimpleResponse maxBody jsonParse sanitize resp).json = none) ∧
    (strContainsSub (respCType resp) "application/json" = false →
      (sendSimpleResponse maxBody jsonParse sanitize resp).bodyB64 =
        some (resp.content.take maxBody) ∧
      (sendSimpleResponse maxBody jsonParse sanitize resp).json = none) := by
  have htake : (if maxBody < resp.content.length then resp.content.take maxBody
      else resp.content) = resp.content.take maxBody := by
    split
    · rfl
    · rw [List.take_of_length_le (by omega)]
  refine ⟨?_, ?_, ?_⟩
  · intro j hct hparse
    unfold sendSimpleResponse
    simp only [hct, if_true, hparse]
    refine ⟨trivial, trivial, ?_⟩
    simp
  · intro hct hparse
    unfold sendSimpleResponse
    simp only [hct, if_true, hparse, htake]
    simp
  · intro hct
    unfold sendSimpleResponse
    simp only [hct, Bool.false_eq_true, if_false, htake]
    split <;> simp

/-- Witness for C10: a 3-byte JSON body with `max_body = 2` parses to a
value that is embedded whole while `truncated` is reported true. -/
theorem c10_json_not_truncated_witness :
    (sendSimpleResponse 2 (fun _ => some 42) (fun j : Nat => j)
        { statusCode := 200, headers := [("Content-Type", "application/json")],
          content := [1, 2, 3] }).json = some 42 ∧
    (sendSimpleResponse 2 (fun _ => some 42) (fun j : Nat => j)
        { statusCode := 200, headers := [("Content-Type", "application/json")],
          content := [1, 2, 3] }).bodyB64 = none ∧
    ((sendSimpleResponse 2 (fun _ => some 42) (fun j : Nat => j)
        { statusCode := 200, headers := [("Content-Type", "application/json")],
          content := [1, 2, 3] }).truncated = (2 < ([1, 2, 3] : Bytes).length)) :=
  (c10_json_not_truncated 2 (fun _ => some 42) (fun j : Nat => j)
    { statusCode := 200, headers := [("Content-Type", "application/json")],
      content := [1, 2, 3] }).1 42 (by decide) rfl

/-! ## C2: port-isolation firewall (router.py:4108-4323)

URLs are represented by their parse result (`urllib.parse.urlparse` is
an external library): scheme, hostname, explicit port, path.  The
mutable state the validation path touches is `SERVICE_TARGETS` (whose
per-service port lists and endpoints are mutated by on-demand
whitelisting), `self.targets`, `self.alias_map` and the runtime
isolation switch.  The TCP probe and the log-file port detection are
I/O and enter as oracles. -/

/-- A parsed URL. -/
structure Url where
  scheme : String
  host : Option String
  port : Option Nat
  path : String
deriving DecidableEq

/-- Port defaulting in `_validate_url_port` (router.py:4117-4119):
`parsed.port`, falling back to 443/80 by scheme when absent. -/
def Url.portDefaulted (u : Url) : Nat :=
  match u.port with
  | some p => p
  | none => if u.scheme = "https" then 443 else 80

/-- Port defaulting in `_ensure_port_whitelisted` (router.py:4272):
`parsed.port or (443 if ... else 80)` — a falsy (0) explicit port also
falls back. -/
def Url.portOr (u : Url) : Nat :=
  match u.port with
  | some p => if p = 0 then (if u.scheme = "https" then 443 else 80) else p
  | none => if u.scheme = "https" then 443 else 80

/-- One `SERVICE_TARGETS` entry (router.py:106-143): canonical name,
target key, aliases, mutable whitelist of ports, mutable endpoint. -/
structure ServiceInfo where
  name : String
  target : String
  aliases : List String
  ports : List Nat
  endpoint : Option Url
deriving DecidableEq

/-- The state read and mutated by URL validation and on-demand
whitelisting. -/
structure IsoState where
  portIsolationEnabled : Bool
  serviceTargets : List ServiceInfo
  targets : List (String × Url)
  aliasMap : List (String × String)
deriving DecidableEq

/-- Python string truthiness on optional strings. -/
def optTruthy : Option String → Bool
  | some s => s ≠ ""
  | none => false

/-- `a or b` over optional strings with falsy empty strings. -/
def orOptStr (a b : Option String) : Option String := if optTruthy a then a else b

/-- `a or b` where a falsy base URL is absence. -/
def orOptUrl (a b : Option Url) : Option Url :=
  match a with
  | some u => some u
  | none => b

/-- `_canonical_service` (router.py:4013-4017) for a non-empty hint:
lower-case it and map it through `alias_map`, defaulting to itself. -/
def canonicalService (st : IsoState) (hint : String) : String :=
  (lookupA st.aliasMap (lowerStr hint)).getD (lowerStr hint)

/-- The `svc` computed by `_validate_url_port` / `_ensure_port_whitelisted`
/ `_resolve_url`: `self._canonical_service(service) if service else ""`. -/
def svcOf (st : IsoState) (service : String) : String :=
  if service ≠ "" then canonicalService st service else ""

/-- `SERVICE_TARGETS.get(svc)`. -/
def findService (st : IsoState) (svc : String) : Option ServiceInfo :=
  st.serviceTargets.find? (fun ti => ti.name == svc)

/-- In-place mutation of the `SERVICE_TARGETS` entry named `svc`. -/
def updateService (st : IsoState) (svc : String) (info : ServiceInfo) : IsoState :=
  { st with serviceTargets :=
      st.serviceTargets.map (fun ti => if ti.name == svc then info else ti) }

/-- `_validate_url_port` (router.py:4108-4149): with isolation off,
accept; otherwise accept iff the (scheme-defaulted) port is among the
static ports of every matching `SERVICE_TARGETS` entry plus the ports
of the matching configured target base URLs. -/
def validateUrlPort (st : IsoState) (u : Url) (service : String) : Bool :=
  if ¬st.portIsolationEnabled then true
  else
    let port := u.portDefaulted
    let svc := svcOf st service
    let staticPorts := ((st.serviceTargets.filter (fun ti =>
        svc == "" || svc == ti.name || ti.aliases.contains svc)).map
          ServiceInfo.ports).flatten
    let targetPorts := st.targets.filterMap (fun pr =>
        if svc == "" || svc == pr.1 || svc == canonicalService st pr.1 then
          (if pr.2.portDefaulted ≠ 0 then some pr.2.portDefaulted else none)
        else none)
    (staticPorts ++ targetPorts).contains port

/-- `_service_host_hint` (router.py:4180-4189). -/
def serviceHostHint (st : IsoState) (service : String) : Option String :=
  let info := findService st service
  let targetKey :=
    match info with
    | some ti => if ti.target = "" then service else ti.target
    | none => service
  let base := orOptUrl (lookupA st.targets targetKey) (info.bind ServiceInfo.endpoint)
  base.bind Url.host

/-- `_hosts_equivalent` (router.py:4191-4198): loopback hostnames
compare equal; falsy hosts never match. -/
def hostsEquivalent (l r : Option String) : Bool :=
  match l, r with
  | some a, some b =>
      if a = "" ∨ b = "" then false
      else if (a = "127.0.0.1" ∨ a = "localhost") ∧ (b = "127.0.0.1" ∨ b = "localhost")
        then true
      else a == b
  | _, _ => false

/-- The mutation part of `_whitelist_service_port` (router.py:4224-4259):
append the port to the service's whitelist when new, then realign the
configured endpoint and target base URL to the new port. -/
def whitelistAlign (st : IsoState) (svc : String) (info : ServiceInfo) (port : Nat)
    (host : Option String) (scheme : Option String) : Bool × IsoState :=
  let changed1 := decide (port ∉ info.ports)
  let info1 := if port ∈ info.ports then info else { info with ports := info.ports ++ [port] }
  let st1 := updateService st svc info1
  let targetKey := if info.target = "" then svc else info.target
  let baseHint := orOptUrl (lookupA st1.targets targetKey) info1.endpoint
  let baseHost := baseHint.bind Url.host
  let baseScheme := baseHint.map Url.scheme
  let baseHost1 := if ¬optTruthy baseHost ∧ optTruthy host then host else baseHost
  let baseScheme1 := if ¬optTruthy baseScheme then scheme else baseScheme
  match baseHost1 with
  | none => (changed1, st1)
  | some h =>
      if h = "" then (changed1, st1)
      else
        let newBase : Url :=
          { scheme := if optTruthy baseScheme1 then baseScheme1.getD "" else "http",
            host := some h, port := some port, path := "" }
        if baseHint ≠ some newBase then
          let info2 := { info1 with endpoint := some newBase }
          let st2 := { updateService st1 svc info2 with
              targets := setA st1.targets targetKey newBase }
          (true, st2)
        else (changed1, st1)

/-- `_whitelist_service_port` (router.py:4210-4259): canonicalize,
look the service up, optionally require a successful TCP probe, then
whitelist and realign. -/
def whitelistServicePort (probe : String → Nat → Bool) (st : IsoState)
    (service : String) (port : Nat) (host : Option String) (scheme : Option String)
    (requireProbe : Bool) : Bool × IsoState :=
  let svc0 := canonicalService st service
  let svc := if svc0 = "" then service else svc0
  if svc = "" ∨ port = 0 then (false, st)
  else
    match findService st svc with
    | none => (false, st)
    | some info =>
        if requireProbe ∧ optTruthy host then
          if ¬probe (host.getD "") port then (false, st)
          else whitelistAlign st svc info port host scheme
        else whitelistAlign st svc info port host scheme

/-- `_ensure_port_whitelisted` (router.py:4261-4291): on-demand
whitelisting — log-detect (oracle `detectPort`) with probe and
realignment, then a direct probe of the requested port when the host
matches the configured one; every `True` exit revalidates the URL
against the updated state first. -/
def ensurePortWhitelisted (detectPort : String → Option Nat)
    (probe : String → Nat → Bool) (st : IsoState) (u : Url) (service : String) :
    Bool × IsoState :=
  if ¬st.portIsolationEnabled then (true, st)
  else
    let svc := svcOf st service
    if svc = "" then (false, st)
    else
      let port := u.portOr
      let cfgHost := serviceHostHint st svc
      let requestedHost := u.host
      let hostHint := orOptStr (orOptStr cfgHost requestedHost) (some "127.0.0.1")
      let hostMismatch := optTruthy cfgHost && optTruthy requestedHost &&
        !(hostsEquivalent cfgHost requestedHost)
      let scheme := if u.scheme = "" then "http" else u.scheme
      let step1 : Option (Bool × IsoState) × IsoState :=
        match detectPort svc with
        | some dp =>
            let r := whitelistServicePort probe st svc dp hostHint (some scheme) true
            if r.1 && !hostMismatch && validateUrlPort r.2 u svc then
              (some (true, r.2), r.2)
            else (none, r.2)
        | none => (none, st)
      match step1.1 with
      | some res => res
      | none =>
          let st1 := step1.2
          if hostMismatch then (false, st1)
          else if port ≠ 0 && optTruthy hostHint && probe (hostHint.getD "") port then
            let r2 := whitelistServicePort probe st1 svc port hostHint (some scheme) false
            (validateUrlPort r2.2 u svc, r2.2)
          else (false, st1)

/-- Whether a path string starts with a slash (`path.startswith("/")`,
router.py:4314). -/
def startsSlash (p : String) : Bool :=
  match p.data with
  | [] => false
  | c :: _ => c == '/'

/-- The request fields `_resolve_url` reads (router.py:4293-4296). -/
structure ReqUrl where
  url : Option Url
  service : String
  path : Option String

/-- The validate-or-whitelist-on-demand block `_resolve_url` runs on
both of its paths (router.py:4304-4308 and 4318-4321, verbatim twice in
the source): accept a URL that validates, otherwise attempt on-demand
whitelisting once and re-accept, otherwise raise the `port isolation`
ValueError (whose interpolated URL and service text is elided from the
message constant). -/
def resolveCheck (detectPort : String → Option Nat) (probe : String → Nat → Bool)
    (st : IsoState) (u : Url) (svc : String) (emsg : String) :
    Except String (Url × IsoState) :=
  if ¬validateUrlPort st u svc then
    let r := ensurePortWhitelisted detectPort probe st u svc
    if ¬r.1 then .error emsg
    else .ok (u, r.2)
  else .ok (u, st)

/-- `_resolve_url` (router.py:4293-4323): an explicit URL is validated
(with one on-demand whitelisting attempt) and returned; otherwise the
URL is resolved from the configured target base and the request path
and validated the same way.  A failure of both validation and
on-demand whitelisting raises the `port isolation` ValueError; a
missing target raises `unknown service`. -/
def resolveUrl (detectPort : String → Option Nat) (probe : String → Nat → Bool)
    (st : IsoState) (req : ReqUrl) : Except String (Url × IsoState) :=
  let svcRaw := req.service
  let svc := svcOf st svcRaw
  let targetKey :=
    match findService st svc with
    | some info => if info.target = "" then svc else info.target
    | none => if svcRaw ≠ "" then svcRaw else svc
  match req.url with
  | some u =>
      resolveCheck detectPort probe st u svc "port isolation: URL port not in whitelist"
  | none =>
      match orOptUrl (lookupA st.targets targetKey) (lookupA st.targets svc) with
      | none => .error "unknown service"
      | some base =>
          let path :=
            match req.path with
            | some p => if p = "" then "/" else p
            | none => "/"
          let path1 := if startsSlash path then path else "/" ++ path
          let resolved := { base with path := path1 }
          resolveCheck detectPort probe st resolved svc
            "port isolation: resolved URL port not in whitelist"

/-- What `_http_worker` / `_process_request` does with the resolution
outcome (router.py:4337-4380): a resolved URL is the destination of the
one HTTP call; a resolution error is caught and answered with a single
`relay.response{ok:false}` and no HTTP call is made. -/
inductive WorkerAct
  | httpCall (u : Url)
  | errorResponse (rid : String) (e : String)
deriving DecidableEq

/-- The acts of one worker iteration up to the HTTP call, and the
firewall state at the moment of that call. -/
def processRequestActs (detectPort : String → Option Nat)
    (probe : String → Nat → Bool) (st : IsoState) (rid : String) (req : ReqUrl) :
    List WorkerAct × IsoState :=
  match resolveUrl detectPort probe st req with
  | .ok (u, st') => ([.httpCall u], st')
  | .error e => ([.errorResponse rid e], st)

theorem validate_of_disabled (st : IsoState) (u : Url) (service : String)
    (h : st.portIsolationEnabled = false) :
    validateUrlPort st u service = true := by
  unfold validateUrlPort
  rw [if_pos (by simp [h])]

/-- Every `True` exit of `_ensure_port_whitelisted` happens only after
`_validate_url_port` has accepted the URL against the updated state
(router.py:4282-4283, 4288-4290), or with isolation disabled, in which
case validation accepts trivially. -/
theorem ensure_true_validate (d : String → Option Nat) (p : String → Nat → Bool)
    (st : IsoState) (u : Url) (service : String) (st' : IsoState)
    (h : ensurePortWhitelisted d p st u service = (true, st')) :
    validateUrlPort st' u (svcOf st service) = true := by
  unfold ensurePortWhitelisted at h
  split at h
  · rename_i hdis
    have hst : st = st' := by
      have := congrArg Prod.snd h
      simpa using this
    rw [← hst]
    exact validate_of_disabled st u (svcOf st service) (by simpa using hdis)
  · rename_i hen
    simp only [] at h
    split at h
    · exact absurd (congrArg Prod.fst h) (by simp)
    · rename_i hsvc
      rcases hd : d (svcOf st service) with _ | dp
      · rw [hd] at h
        simp only [] at h
        split at h
        · rename_i hmis
          exact absurd (congrArg Prod.fst h) (by simp)
        · split at h
          · have h1 := congrArg Prod.fst h
            have h2 := congrArg Prod.snd h
            simp only [] at h1 h2
            rw [h2] at h1
            exact h1
          · exact absurd (congrArg Prod.fst h) (by simp)
      · rw [hd] at h
        simp only [] at h
        by_cases hc : ((whitelistServicePort p st (svcOf st service) dp
              (orOptStr (orOptStr (serviceHostHint st (svcOf st service)) u.host)
                (some "127.0.0.1"))
              (some (if u.scheme = "" then "http" else u.scheme)) true).1 &&
            !(optTruthy (serviceHostHint st (svcOf st service)) && optTruthy u.host &&
              !hostsEquivalent (serviceHostHint st (svcOf st service)) u.host) &&
            validateUrlPort
              (whitelistServicePort p st (svcOf st service) dp
                (orOptStr (orOptStr (serviceHostHint st (svcOf st service)) u.host)
                  (some "127.0.0.1"))
                (some (if u.scheme = "" then "http" else u.scheme)) true).2
              u (svcOf st service)) = true
        · rw [if_pos (by simpa using hc)] at h
          simp only [] at h
          have h2 := congrArg Prod.snd h
          simp only [] at h2
          rw [← h2]
          have := (Bool.and_eq_true _ _).mp hc
          exact this.2
        · rw [if_neg (by simpa using hc)] at h
          simp only [] at h
          split at h
          · exact absurd (congrArg Prod.fst h) (by simp)
          · split at h
            · have h1 := congrArg Prod.fst h
              have h2 := congrArg Prod.snd h
              simp only [] at h1 h2
              rw [h2] at h1
              exact h1
            · exact absurd (congrArg Prod.fst h) (by simp)

theorem svcOf_idem (st : IsoState) (service : String)
    (hidem : canonicalService st (canonicalService st service) =
      canonicalService st service) :
    svcOf st (svcOf st service) = svcOf st service := by
  by_cases hs : service = ""
  · simp [svcOf, hs]
  · by_cases hc : canonicalService st service = ""
    · simp [svcOf, hs, hc]
    · simp [svcOf, hs, hc, hidem]

theorem resolveCheck_ok (d : String → Option Nat) (p : String → Nat → Bool)
    (st : IsoState) (u0 : Url) (svc emsg : String) (u : Url) (st' : IsoState)
    (hsv : svcOf st svc = svc)
    (h : resolveCheck d p st u0 svc emsg = .ok (u, st')) :
    u = u0 ∧ validateUrlPort st' u0 svc = true := by
  unfold resolveCheck at h
  split at h
  · rename_i hval
    simp only [] at h
    split at h
    · exact absurd h (by simp)
    · rename_i hens
      have hok := Except.ok.inj h
      have hu1 : u = u0 := (congrArg Prod.fst hok).symm
      have hst1 : st' = (ensurePortWhitelisted d p st u0 svc).2 :=
        (congrArg Prod.snd hok).symm
      refine ⟨hu1, ?_⟩
      rw [hst1]
      nth_rewrite 2 [← hsv]
      have hpair : ensurePortWhitelisted d p st u0 svc =
          (true, (ensurePortWhitelisted d p st u0 svc).2) := by
        have h1 : (ensurePortWhitelisted d p st u0 svc).1 = true := by
          simpa using hens
        rw [← h1]
      exact ensure_true_validate d p st u0 svc _ hpair
  · rename_i hval
    have hok := Except.ok.inj h
    have hu1 : u = u0 := (congrArg Prod.fst hok).symm
    have hst1 : st' = st := (congrArg Prod.snd hok).symm
    refine ⟨hu1, ?_⟩
    rw [hst1]
    simpa using hval

theorem resolveCheck_error_of_reject (d : String → Option Nat)
    (p : String → Nat → Bool) (st : IsoState) (u0 : Url) (svc emsg : String)
    (hval : validateUrlPort st u0 svc = false)
    (hens : (ensurePortWhitelisted d p st u0 svc).1 = false) :
    resolveCheck d p st u0 svc emsg = .error emsg := by
  unfold resolveCheck
  rw [if_pos (by simp [hval]), if_pos (by simp [hens])]

/-- C2: with the firewall state and oracles fixed, (1) whenever
`_resolve_url` returns a URL, `_validate_url_port` accepts that URL —
its destination port, explicit or 80/443-defaulted, is in the
service's combined whitelist — against the state as updated by any
on-demand whitelisting, i.e. at the moment the worker issues the HTTP
call, and the worker performs exactly that one call; (2) whenever
`_resolve_url` raises, the worker emits a single error response and
issues no HTTP call; (3) an explicit URL that fails validation and
whose on-demand whitelisting also fails raises the `port isolation`
ValueError.  The idempotency hypothesis on `_canonical_service`
reflects how `RelayNode.__init__` builds `alias_map`
(router.py:3816-3838): every value of the map is a canonical name
mapped to itself. -/
theorem c2_port_isolation_enforced (d : String → Option Nat)
    (p : String → Nat → Bool) (st : IsoState) (rid : String) (req : ReqUrl)
    (hidem : canonicalService st (canonicalService st req.service) =
      canonicalService st req.service) :
    (∀ u st', resolveUrl d p st req = .ok (u, st') →
      validateUrlPort st' u (svcOf st req.service) = true ∧
      (processRequestActs d p st rid req).1 = [WorkerAct.httpCall u]) ∧
    (∀ e, resolveUrl d p st req = .error e →
      (processRequestActs d p st rid req).1 = [WorkerAct.errorResponse rid e]) ∧
    (∀ u, req.url = some u →
      validateUrlPort st u (svcOf st req.service) = false →
      (ensurePortWhitelisted d p st u (svcOf st req.service)).1 = false →
      resolveUrl d p st req = .error "port isolation: URL port not in whitelist") := by
  have hfix := svcOf_idem st req.service hidem
  refine ⟨?_, ?_, ?_⟩
  · intro u st' h
    refine ⟨?_, by unfold processRequestActs; rw [h]⟩
    unfold resolveUrl at h
    rcases hu : req.url with _ | u0
    · rw [hu] at h
      simp only [] at h
      split at h
      · exact absurd h (by simp)
      · rename_i base hbase
        obtain ⟨hu1, hval⟩ := resolveCheck_ok d p st _ (svcOf st req.service) _ u st' hfix h
        rw [hu1]
        exact hval
    · rw [hu] at h
      simp only [] at h
      obtain ⟨hu1, hval⟩ := resolveCheck_ok d p st u0 (svcOf st req.service) _ u st' hfix h
      rw [hu1]
      exact hval
  · intro e h
    unfold processRequestActs
    rw [h]
  · intro u hu hval hens
    unfold resolveUrl
    rw [hu]
    simp only []
    exact resolveCheck_error_of_reject d p st u (svcOf st req.service) _ hval hens

/-- A concrete firewall state for the C2 witness: one service
(`whisper_asr`, alias `asr`, static ports 8126-8127), isolation
enabled. -/
def c2FixUrl : Url :=
  { scheme := "http", host := some "127.0.0.1", port := some 8126, path := "" }

/-- The explicit request URL of the C2 witness (port 8126, in the
whitelist). -/
def c2FixReqUrl : Url :=
  { scheme := "http", host := some "127.0.0.1", port := some 8126, path := "/x" }

/-- The firewall state of the C2 witness. -/
def c2FixState : IsoState :=
  { portIsolationEnabled := true,
    serviceTargets :=
      [{ name := "whisper_asr",
         target := "asr",
         aliases := ["whisper_asr", "asr", "whisper"],
         ports := [8126, 8127],
         endpoint := some c2FixUrl }],
    targets := [("asr", c2FixUrl)],
    aliasMap := [("asr", "whisper_asr"), ("whisper_asr", "whisper_asr")] }

/-- The request of the C2 witness. -/
def c2FixReq : ReqUrl :=
  { url := some c2FixReqUrl, service := "asr", path := none }

/-- Witness for C2 at the concrete state: resolution of the explicit
URL succeeds and the validated destination port is in the whitelist at
the moment of the call. -/
theorem c2_port_isolation_enforced_witness :
    validateUrlPort c2FixState c2FixReqUrl (svcOf c2FixState "asr") = true ∧
    (processRequestActs (fun _ => none) (fun _ _ => false) c2FixState "r1" c2FixReq).1 =
      [WorkerAct.httpCall c2FixReqUrl] :=
  (c2_port_isolation_enforced (fun _ => none) (fun _ _ => false) c2FixState "r1"
      c2FixReq (by decide)).1
    c2FixReqUrl c2FixState (by rfl)

end Hydra
